import Mathlib

/-!
Verification of ExeKGLib's construction and execution engines
(`exe_kg_lib/classes/exe_kg.py`).

The Python code is shallowly embedded: the mutable `rdflib.Graph` objects
become explicit lists of triples, class attributes become record fields that
are threaded through the functions, `exit(1)` / uncaught Python exceptions
become error values that carry the state at the moment of termination, and
the unbounded recursion / `while` loops of the parser and executor take an
explicit fuel argument.

Helper modules of the repository (`utils.kg_creation_utils`,
`utils.query_utils`, `utils.string_utils`, the entity classes and the task
implementation modules) are not available as source; every definition that
stands in for one of them is marked `Modelled from the spec:` in its doc
comment and follows the specification's description of that helper.
-/

namespace ExeKGLib

/-- An RDF node as the embedding sees it: either an IRI or a literal with a
lexical value and a datatype IRI (`rdflib.Literal(lexical_or_value, datatype)`). -/
inductive RDFNode where
| iri (s : String)
| lit (value : String) (datatype : String)
deriving Repr, DecidableEq

/-- One (subject, predicate, object) triple. Subjects and predicates are IRIs. -/
structure Triple where
  subj : String
  pred : String
  obj : RDFNode
deriving Repr, DecidableEq

/-- An `rdflib.Graph` as a list of triples; `g.add(t)` appends, iteration is
in list order. -/
abbrev Graph := List Triple

/-- The string form of a node, as Python's `str(o)` produces it inside the
parsing loops: the IRI text for a `URIRef`, the lexical value for a `Literal`. -/
def RDFNode.text : RDFNode → String
| .iri s => s
| .lit v _ => v

/-- Python's `str.split(sep)` for a one-character separator, over the
character list: splits at every occurrence, keeping empty pieces. -/
def splitOnChar (sep : Char) : List Char → List (List Char)
| [] => [[]]
| c :: cs =>
  if c = sep then [] :: splitOnChar sep cs
  else
    match splitOnChar sep cs with
    | [] => [[c]]
    | p :: ps => (c :: p) :: ps

/-- `iri.split("#")[1]`: the piece after the first `#`.  Python raises
IndexError when no `#` is present; every call site in the embedded code hands
it an IRI that contains `#`, and the embedding returns `""` in the impossible
case. -/
def fragment (s : String) : String :=
  String.mk ((splitOnChar '#' s.data).getD 1 [])

/-- One step of camel-case to snake-case conversion on a character list. -/
def camelToSnakeAux : List Char → List Char
| [] => []
| c :: cs =>
  if c.isUpper then '_' :: c.toLower :: camelToSnakeAux cs
  else c :: camelToSnakeAux cs

/-- Modelled from the spec: `property_name_to_field_name` from
`utils.string_utils` is not under `src/`.  The spec's generic field-population
rule ("map the predicate to a field name") sends a predicate IRI such as
`...#hasNextTask` to the Python field name `has_next_task`: take the IRI
fragment and convert camel case to snake case. -/
def property_name_to_field_name (p : String) : String :=
  String.mk (camelToSnakeAux (fragment p).data)

/-- The `rdf:type` predicate connecting an instance to its class. -/
def rdf_type : String := "http://www.w3.org/1999/02/22-rdf-syntax-ns#type"

/-- The `rdfs:subClassOf` predicate connecting a class to its superclass. -/
def rdfs_subClassOf : String := "http://www.w3.org/2000/01/rdf-schema#subClassOf"

/-! ### KG schema table and bottom-level schema detection (`ExeKG.__init__`) -/

/-- One entry of the `KG_SCHEMAS` table: schema name, namespace prefix and
namespace IRI (the `path` field plays no role in the embedded logic). -/
structure SchemaInfo where
  name : String
  pfx : String
  ns : String
deriving Repr, DecidableEq

/-- The `KG_SCHEMAS` dictionary of `exe_kg.py`, in its insertion order
(Python dict iteration order). -/
def KG_SCHEMAS : List SchemaInfo :=
  [⟨"Data Science", "ds",
    "https://raw.githubusercontent.com/nsai-uio/ExeKGOntology/main/ds_exeKGOntology.ttl#"⟩,
   ⟨"Visualization", "visu",
    "https://raw.githubusercontent.com/nsai-uio/ExeKGOntology/main/visu_exeKGOntology.ttl#"⟩,
   ⟨"Statistics", "stats",
    "https://raw.githubusercontent.com/nsai-uio/ExeKGOntology/main/stats_exeKGOntology.ttl#"⟩,
   ⟨"Machine Learning", "ml",
    "https://raw.githubusercontent.com/nsai-uio/ExeKGOntology/main/ml_exeKGOntology.ttl#"⟩]

/-- The bottom-level-schema auto-detection of `ExeKG.__init__` in execution
mode (`exe_kg.py` lines 81-103).  `all_ns` is the list of
(prefix, namespace IRI) bindings of the parsed input KG.  The loop over
`KG_SCHEMAS` skips "Data Science" and "Visualization" and selects the first
remaining schema whose binding is present; if none is found, the
Visualization schema is selected only when its own binding is present;
otherwise the constructor prints a diagnostic and calls `exit(1)`, embedded
as `none`. -/
def detect_bottom_level_schema (all_ns : List (String × String)) : Option SchemaInfo :=
  match (KG_SCHEMAS.filter
      (fun s => s.name ≠ "Data Science" ∧ s.name ≠ "Visualization")).find?
      (fun s => all_ns.contains (s.pfx, s.ns)) with
  | some s => some s
  | none =>
    match KG_SCHEMAS.find? (fun s => s.name = "Visualization") with
    | some visu => if all_ns.contains (visu.pfx, visu.ns) then some visu else none
    | none => none

/-! ### Dictionaries, naming allocator and `parse_kgs` seeding -/

/-- Python dict assignment `d[k] = v` on an association list: overwrite the
existing entry, or append a new one. -/
def dict_set {α : Type} (d : List (String × α)) (k : String) (v : α) :
    List (String × α) :=
  if d.any (fun p => p.1 = k) then d.map (fun p => if p.1 = k then (k, v) else p)
  else d ++ [(k, v)]

/-- A counter dictionary (`task_type_dict` / `method_type_dict`): type name to
next counter value. -/
abbrev CounterDict := List (String × Nat)

/-- The seeding loops of `ExeKG.parse_kgs` (`exe_kg.py` lines 154-166): for
every subclass IRI returned by the resolver's subclasses-of query, set the
counter for its short name to 1.  `get_subclasses_of` itself lives in the
missing `utils.query_utils`; its answer is the `subclass_iris` parameter. -/
def seed_counter_dict (subclass_iris : List String) : CounterDict :=
  subclass_iris.foldl (fun d iri => dict_set d (fragment iri) 1) []

/-- Modelled from the spec: `name_instance` from `utils.kg_creation_utils` is
not under `src/`.  Spec §4.1: "`nextName(type) -> name`: returns
`<type><counter>`, then increments the stored counter for `type`".  The
Python helper receives both counter dicts and picks the one matching the
entity's kind (task or method); the embedding is handed the chosen dict and
returns it updated.  A type absent from the dict is a required-key access
failure (Python `KeyError`), embedded as `none`. -/
def name_instance (d : CounterDict) (ty : String) : Option (String × CounterDict) :=
  match d.lookup ty with
  | some n => some (ty ++ Nat.repr n, dict_set d ty (n + 1))
  | none => none

/-- `name_instance` iterated: the names allocated by `n` successive requests
for the same type, together with the final dictionary. -/
def alloc_names (d : CounterDict) (ty : String) : Nat → Option (List String × CounterDict)
| 0 => some ([], d)
| n + 1 =>
  match name_instance d ty with
  | none => none
  | some (nm, d1) =>
    match alloc_names d1 ty n with
    | none => none
    | some (nms, d2) => some (nm :: nms, d2)

/-! ### Construction-side entity records -/

/-- A construction-side data entity (class `DataEntity`; its module is not
under `src/`, fields per spec §3): IRI, parent class IRI, and the optional
source value / data semantics / data structure / reference fields. -/
structure CDataEntity where
  iri : String
  parent_iri : String
  source_value : Option String := none
  data_semantics : Option String := none
  data_structure : Option String := none
  has_reference : Option String := none
deriving Repr, DecidableEq

/-- The derived short name of an entity (spec §3: "derived short name"):
the IRI fragment. -/
def CDataEntity.name (de : CDataEntity) : String := fragment de.iri

/-- A construction-side task object (class `Task`; its module is not under
`src/`, fields per spec §3).  `type` is the short name of the parent class;
`input_dict` / `output_dict` map slot names to bound data entities. -/
structure CTask where
  iri : String
  type : String
  input_dict : List (String × CDataEntity) := []
  output_dict : List (String × CDataEntity) := []
deriving Repr, DecidableEq

/-! ### Graph-building helpers (from the missing `utils.kg_creation_utils`) -/

/-- `rdflib.Graph.add`: set semantics, adding an already present triple is a
no-op; a new triple goes to the end of the iteration order. -/
def gadd (g : Graph) (t : Triple) : Graph := if t ∈ g then g else g ++ [t]

/-- Add a list of triples in order. -/
def gaddAll (g : Graph) (ts : List Triple) : Graph := ts.foldl gadd g

/-- The XSD string datatype IRI. -/
def xsd_string : String := "http://www.w3.org/2001/XMLSchema#string"

/-- Top-level-schema predicate: `hasInput`. -/
def predHasInput (top_ns : String) : String := top_ns ++ "hasInput"

/-- Top-level-schema predicate: `hasOutput`. -/
def predHasOutput (top_ns : String) : String := top_ns ++ "hasOutput"

/-- Top-level-schema predicate: `hasNextTask`. -/
def predHasNextTask (top_ns : String) : String := top_ns ++ "hasNextTask"

/-- Top-level-schema predicate: `hasStartTask`. -/
def predHasStartTask (top_ns : String) : String := top_ns ++ "hasStartTask"

/-- Top-level-schema predicate: `hasReference` (carried by bound-copy data
entities, spec §3 invariant 3). -/
def predHasReference (top_ns : String) : String := top_ns ++ "hasReference"

/-- Top-level-schema predicate holding a data entity's source value. -/
def predSourceValue (top_ns : String) : String := top_ns ++ "sourceValue"

/-- Top-level-schema predicate holding a data entity's data semantics. -/
def predDataSemantics (top_ns : String) : String := top_ns ++ "dataSemantics"

/-- Top-level-schema predicate holding a data entity's data structure. -/
def predDataStructure (top_ns : String) : String := top_ns ++ "dataStructure"

/-- Top-level-schema predicate recording the pipeline's input data path. -/
def predInputDataPath (top_ns : String) : String := top_ns ++ "hasInputDataPath"

/-- The triples describing one data entity node: an instance-of triple plus
one triple per populated field. -/
def data_entity_triples (top_ns : String) (de : CDataEntity) : List Triple :=
  [⟨de.iri, rdf_type, .iri de.parent_iri⟩]
  ++ (match de.source_value with
      | some v => [⟨de.iri, predSourceValue top_ns, .lit v xsd_string⟩]
      | none => [])
  ++ (match de.data_semantics with
      | some v => [⟨de.iri, predDataSemantics top_ns, .iri v⟩]
      | none => [])
  ++ (match de.data_structure with
      | some v => [⟨de.iri, predDataStructure top_ns, .iri v⟩]
      | none => [])
  ++ (match de.has_reference with
      | some v => [⟨de.iri, predHasReference top_ns, .iri v⟩]
      | none => [])

/-- Modelled from the spec: `add_data_entity_instance` from
`utils.kg_creation_utils` is not under `src/`.  Adds the given data entity's
node to the graph (instance-of triple plus one triple per populated field). -/
def add_data_entity_instance (g : Graph) (top_ns : String) (de : CDataEntity) : Graph :=
  gaddAll g (data_entity_triples top_ns de)

/-- Modelled from the spec: `add_and_attach_data_entity` from
`utils.kg_creation_utils` is not under `src/`.  Adds the data entity's node
and attaches the task to it via `relation` (`hasInput` / `hasOutput`). -/
def add_and_attach_data_entity (g : Graph) (top_ns : String) (de : CDataEntity)
    (relation : String) (task_iri : String) : Graph :=
  gadd (add_data_entity_instance g top_ns de) ⟨task_iri, relation, .iri de.iri⟩

/-- Modelled from the spec: `add_instance_from_parent_with_relation` from
`utils.kg_creation_utils` is not under `src/`.  Instantiates a new individual
named `nm` under the bottom-level namespace `ns`, declares it an instance of
the class `parent_iri`, and links `linked_iri` to it via `relation`; returns
the updated graph and the new individual's IRI. -/
def add_instance_from_parent_with_relation (ns : String) (g : Graph) (parent_iri : String)
    (relation : String) (linked_iri : String) (nm : String) : Graph × String :=
  let iri := ns ++ nm
  (gaddAll g [⟨iri, rdf_type, .iri parent_iri⟩, ⟨linked_iri, relation, .iri iri⟩], iri)

/-- Modelled from the spec: `add_literal` from `utils.kg_creation_utils` is
not under `src/`.  Attaches `Literal(value, datatype)` to the entity via the
given property. -/
def add_literal (g : Graph) (e_iri p_iri : String) (value datatype : String) : Graph :=
  gadd g ⟨e_iri, p_iri, .lit value datatype⟩

/-- Modelled from the spec: `create_pipeline_task` from
`utils.kg_creation_utils` is not under `src/`.  Spec §4.2: creates the single
root Pipeline node, records the input data source path as a node property;
the caller makes it the current chain head.  Returns the updated graph and
the pipeline node's IRI; the node's `.type` is `"Pipeline"`. -/
def create_pipeline_task (top_ns bottom_ns : String) (g : Graph)
    (pipeline_name input_data_path : String) : Graph × String :=
  let iri := bottom_ns ++ pipeline_name
  (gaddAll g [⟨iri, rdf_type, .iri (top_ns ++ "Pipeline")⟩,
              ⟨iri, predInputDataPath top_ns, .lit input_data_path xsd_string⟩],
   iri)

/-! ### `ExeKG.add_inputs_to_task` / `ExeKG.add_outputs_to_task` -/

/-- A fatal Python exception escaping the input-binding step: a required-key
access (`KeyError`) on a counter dict or on the caller's binding dict.  The
graph state at the moment the exception is raised accompanies the error. -/
inductive InputsError where
| unrecognizedType (ty : String)
| missingBinding (slot : String)
deriving Repr, DecidableEq

/-- The inner loop of `ExeKG.add_inputs_to_task` (`exe_kg.py` lines 367-400):
one bound copy per element of the binding list of a single slot.  Per
element: the copy IRI is the slot IRI followed by the task-type index, `_`,
and the 1-based same-slot index; the original entity's node is added, then
the copy — whose parent class is the slot class and whose `has_reference` is
the original's IRI — is added and attached via `hasInput`; the slot's entry
in `input_dict` is overwritten with the copy. -/
def bind_input_copies (top_ns : String) (input_entity_iri input_entity_name : String)
    (task_type_index : Nat) :
    Graph → CTask → Nat → List CDataEntity → Graph × CTask
| g, task, _, [] => (g, task)
| g, task, same_input_index, de :: rest =>
  let data_entity_iri :=
    input_entity_iri ++ Nat.repr task_type_index ++ "_" ++ Nat.repr same_input_index
  let g1 := add_data_entity_instance g top_ns de
  let copy : CDataEntity :=
    { iri := data_entity_iri, parent_iri := input_entity_iri, has_reference := some de.iri }
  let g2 := add_and_attach_data_entity g1 top_ns copy (predHasInput top_ns) task.iri
  let task1 := { task with input_dict := dict_set task.input_dict input_entity_name copy }
  bind_input_copies top_ns input_entity_iri input_entity_name task_type_index
    g2 task1 (same_input_index + 1) rest

/-- The outer loop of `ExeKG.add_inputs_to_task` over the resolver's
input-slot answer: per (relation, slot IRI) pair, a required-key lookup of
the slot's short name in the caller's binding dict, then the inner copy
loop. -/
def add_inputs_loop (top_ns : String) (task_type_index : Nat)
    (input_data_entity_dict : List (String × List CDataEntity)) :
    Graph → CTask → List (String × String) → Except (InputsError × Graph) (Graph × CTask)
| g, task, [] => .ok (g, task)
| g, task, pr :: rest =>
  let input_entity_iri := pr.2
  let input_entity_name := fragment input_entity_iri
  match input_data_entity_dict.lookup input_entity_name with
  | none => .error (.missingBinding input_entity_name, g)
  | some input_data_entity_list =>
    let res := bind_input_copies top_ns input_entity_iri input_entity_name
      task_type_index g task 1 input_data_entity_list
    add_inputs_loop top_ns task_type_index input_data_entity_dict res.1 res.2 rest

/-- `ExeKG.add_inputs_to_task` (`exe_kg.py` lines 341-400).  `inputResults`
is the answer of the resolver query `get_input_properties_and_inputs`
(missing `utils.query_utils`; spec §4.3 input-slots-of): ordered
(relation, input-slot class IRI) pairs.  The task-type index is the task
dict's counter for the task's type minus one (the counter was already
incremented when the task was named). -/
def add_inputs_to_task (top_ns : String) (g : Graph) (task : CTask)
    (task_type_dict : CounterDict)
    (inputResults : List (String × String))
    (input_data_entity_dict : List (String × List CDataEntity)) :
    Except (InputsError × Graph) (Graph × CTask) :=
  match task_type_dict.lookup task.type with
  | none => .error (.unrecognizedType task.type, g)
  | some c =>
    add_inputs_loop top_ns (c - 1) input_data_entity_dict g task inputResults

/-- The loop of `ExeKG.add_outputs_to_task` (`exe_kg.py` lines 420-433): per
(relation, output-slot class IRI) pair, a fresh data entity named from the
slot IRI plus the task-type index, with the generic `DataEntity` class as
parent, attached via `hasOutput` and recorded in `output_dict` under the
slot's short name. -/
def add_outputs_loop (top_ns : String) (task_type_index : Nat) :
    Graph → CTask → List (String × String) → Graph × CTask
| g, task, [] => (g, task)
| g, task, pr :: rest =>
  let output_entity_iri := pr.2
  let data_entity_iri := output_entity_iri ++ Nat.repr task_type_index
  let de : CDataEntity := { iri := data_entity_iri, parent_iri := top_ns ++ "DataEntity" }
  let g1 := add_and_attach_data_entity g top_ns de (predHasOutput top_ns) task.iri
  let task1 :=
    { task with output_dict := dict_set task.output_dict (fragment output_entity_iri) de }
  add_outputs_loop top_ns task_type_index g1 task1 rest

/-- `ExeKG.add_outputs_to_task` (`exe_kg.py` lines 402-433).  `outputResults`
is the answer of the resolver query `get_output_properties_and_outputs`
(missing `utils.query_utils`; spec §4.3 output-slots-of). -/
def add_outputs_to_task (top_ns : String) (g : Graph) (task : CTask)
    (task_type_dict : CounterDict)
    (outputResults : List (String × String)) :
    Except (InputsError × Graph) (Graph × CTask) :=
  match task_type_dict.lookup task.type with
  | none => .error (.unrecognizedType task.type, g)
  | some c => .ok (add_outputs_loop top_ns (c - 1) g task outputResults)

/-! ### `ExeKG.add_task` -/

/-- The construction-session state carried by the `ExeKG` object: the output
graph, the two naming dicts, and the chain head (`last_created_task`, kept as
its IRI and its `.type`). -/
structure ConsState where
  output_kg : Graph
  task_type_dict : CounterDict
  method_type_dict : CounterDict
  last_created_task_iri : String
  last_created_task_type : String
deriving Repr, DecidableEq

/-- The fatal outcomes of `ExeKG.add_task`: required-key accesses
(`KeyError`) on the naming dicts, on the input-binding dict, or on the
supplied property values, and the print-and-`exit(1)` branch for a method
type with no compatible (relation, method class) pair. -/
inductive AddTaskError where
| unrecognizedType (ty : String)
| missingInputBinding (slot : String)
| incompatibleMethod (task_type method_type : String)
| missingProperty (property_name : String)
deriving Repr, DecidableEq

/-- The outcome of `ExeKG.add_task`: either the updated session state with
the created task, or a fatal termination.  `self.output_kg` is mutated in
place as the call proceeds, so a fatal outcome carries the output graph as it
stands at the moment the process dies. -/
inductive AddTaskResult where
| ok (st : ConsState) (t : CTask)
| fatal (e : AddTaskError) (output_kg : Graph)
deriving Repr, DecidableEq

/-- The data-property loop of `ExeKG.add_task` (`exe_kg.py` lines 327-335):
per (property IRI, range IRI) pair from the resolver, a required-key lookup
of the property's short name in `data_properties`, then a literal typed by
the declared range is attached to the task node. -/
def add_properties_loop (task_iri : String) (data_properties : List (String × String)) :
    Graph → List (String × String) → Except (String × Graph) Graph
| g, [] => .ok g
| g, pr :: rest =>
  let property_name := fragment pr.1
  match data_properties.lookup property_name with
  | none => .error (property_name, g)
  | some v =>
    add_properties_loop task_iri data_properties (add_literal g task_iri pr.1 v pr.2) rest

/-- `ExeKG.add_task` (`exe_kg.py` lines 238-339).  The resolver answers are
passed explicitly (their queries live in the missing `utils.query_utils`;
spec §4.3): `inputResults` / `outputResults` are the slot pairs,
`methodResults` the (relation, method class IRI) pairs compatible with the
task's class, and `property_list` the (property IRI, range IRI) pairs of the
chosen method class.  Steps, in source order: pick the namespace and the
chain relation, name and link the task node, bind inputs, attach outputs,
match the requested method type against `methodResults` (no match prints a
diagnostic naming both types and calls `exit(1)`), name and link the method
node, attach the data properties, and advance the chain head. -/
def add_task (top_ns bottom_ns visu_ns : String) (st : ConsState)
    (task_type : String)
    (input_data_entity_dict : List (String × List CDataEntity))
    (method_type : String)
    (data_properties : List (String × String))
    (visualization : Bool)
    (inputResults outputResults methodResults property_list : List (String × String)) :
    AddTaskResult :=
  let namespace_to_use := if visualization then visu_ns else bottom_ns
  let relation_iri :=
    if st.last_created_task_type ≠ "Pipeline" then predHasNextTask top_ns
    else predHasStartTask top_ns
  let parent_iri := namespace_to_use ++ task_type
  match name_instance st.task_type_dict task_type with
  | none => .fatal (.unrecognizedType task_type) st.output_kg
  | some (nm, task_dict1) =>
    let step1 := add_instance_from_parent_with_relation bottom_ns st.output_kg
      parent_iri relation_iri st.last_created_task_iri nm
    let next_task : CTask := { iri := step1.2, type := task_type }
    match add_inputs_to_task top_ns step1.1 next_task task_dict1
        inputResults input_data_entity_dict with
    | .error (.unrecognizedType ty, g) => .fatal (.unrecognizedType ty) g
    | .error (.missingBinding slot, g) => .fatal (.missingInputBinding slot) g
    | .ok (g2, next_task1) =>
      match add_outputs_to_task top_ns g2 next_task1 task_dict1 outputResults with
      | .error (.unrecognizedType ty, g) => .fatal (.unrecognizedType ty) g
      | .error (.missingBinding slot, g) => .fatal (.missingInputBinding slot) g
      | .ok (g3, next_task2) =>
        match methodResults.find? (fun pr => fragment pr.2 = method_type) with
        | none => .fatal (.incompatibleMethod task_type method_type) g3
        | some chosen_property_method =>
          match name_instance st.method_type_dict method_type with
          | none => .fatal (.unrecognizedType method_type) g3
          | some (mnm, method_dict1) =>
            let step2 := add_instance_from_parent_with_relation bottom_ns g3
              (namespace_to_use ++ method_type) chosen_property_method.1 next_task2.iri mnm
            match add_properties_loop next_task2.iri data_properties step2.1 property_list with
            | .error (property_name, g) => .fatal (.missingProperty property_name) g
            | .ok g5 =>
              .ok { st with
                      output_kg := g5,
                      task_type_dict := task_dict1,
                      method_type_dict := method_dict1,
                      last_created_task_iri := next_task2.iri,
                      last_created_task_type := next_task2.type }
                  next_task2

/-! ### Parsed objects and graph queries (execution side) -/

mutual

/-- A value assigned to a Python object field by the generic field-population
rule: either a plain string (`str(o)`) or a nested parsed `DataEntity`. -/
inductive FieldValue where
| str : String → FieldValue
| de : PDataEntity → FieldValue

/-- A `DataEntity` object as reconstructed by `parse_data_entity_by_iri`:
IRI, parent class IRI, and the four data fields reachable by the generic
predicate-to-field mapping. -/
inductive PDataEntity where
| mk : (iri : String) → (parent_iri : String) →
    (source_value : Option FieldValue) → (data_semantics : Option FieldValue) →
    (data_structure : Option FieldValue) → (has_reference : Option FieldValue) →
    PDataEntity

end

/-- The IRI of a parsed data entity. -/
def PDataEntity.iri : PDataEntity → String
| ⟨i, _, _, _, _, _⟩ => i

/-- The parent class IRI of a parsed data entity. -/
def PDataEntity.parent_iri : PDataEntity → String
| ⟨_, p, _, _, _, _⟩ => p

/-- The `source_value` field of a parsed data entity. -/
def PDataEntity.source_value : PDataEntity → Option FieldValue
| ⟨_, _, v, _, _, _⟩ => v

/-- The `data_semantics` field of a parsed data entity. -/
def PDataEntity.data_semantics : PDataEntity → Option FieldValue
| ⟨_, _, _, v, _, _⟩ => v

/-- The `data_structure` field of a parsed data entity. -/
def PDataEntity.data_structure : PDataEntity → Option FieldValue
| ⟨_, _, _, _, v, _⟩ => v

/-- The `has_reference` field of a parsed data entity. -/
def PDataEntity.has_reference : PDataEntity → Option FieldValue
| ⟨_, _, _, _, _, v⟩ => v

/-- Bounded reflexive-transitive reachability along the graph's
`rdfs:subClassOf` triples, with explicit fuel (the class hierarchies are
finite and acyclic; `g.length` steps always suffice). -/
def subclass_of (g : Graph) : Nat → String → String → Bool
| 0, a, b => a == b
| fuel + 1, a, b =>
  a == b || g.any (fun t =>
    t.subj == a && t.pred == rdfs_subClassOf &&
      (match t.obj with
       | .iri o => subclass_of g fuel o b
       | .lit _ _ => false))

/-- Modelled from the spec:
`get_first_query_result_if_exists(query_entity_parent_iri, ...)` — the query
lives in the missing `utils.query_utils`.  Spec §4.4: "resolve its schema
parent class (none found ⇒ ...)".  Returns the first class `P` with an
instance-of triple `(node, rdf:type, P)` in the graph such that `P` is an
`rdfs:subClassOf`-descendant (reflexive-transitive) of `cls`. -/
def entity_parent (g : Graph) (node cls : String) : Option String :=
  (g.filterMap (fun t =>
    if t.subj == node && t.pred == rdf_type then
      match t.obj with
      | .iri p => if subclass_of g g.length p cls then some p else none
      | .lit _ _ => none
    else none)).head?

/-- Modelled from the spec:
`get_first_query_result_if_exists(query_data_entity_reference_iri, ...)` —
the query lives in the missing `utils.query_utils`.  Spec §4.4: "resolve an
optional reference target".  Returns the first object of a `hasReference`
triple on the node. -/
def data_entity_reference (g : Graph) (top_ns node : String) : Option String :=
  (g.filterMap (fun t =>
    if t.subj == node && t.pred == predHasReference top_ns then
      some t.obj.text
    else none)).head?

/-- The attributes of a `DataEntity` object that the generic predicate
mapping can reach, plus the reserved `type` attribute; membership in this
list embeds the parser's `hasattr` test (the object's remaining attributes
`iri`, `name`, `parent_entity` are never the image of a schema predicate
under the modelled naming scheme). -/
def DATA_ENTITY_SETTABLE : List String :=
  ["type", "source_value", "data_semantics", "data_structure", "has_reference"]

/-- `setattr` on a parsed data entity for the modelled field set. -/
def set_de_field : PDataEntity → String → FieldValue → PDataEntity
| ⟨i, p, sv, dsem, dstr, ref⟩, fn, v =>
  if fn = "source_value" then ⟨i, p, some v, dsem, dstr, ref⟩
  else if fn = "data_semantics" then ⟨i, p, sv, some v, dstr, ref⟩
  else if fn = "data_structure" then ⟨i, p, sv, dsem, some v, ref⟩
  else if fn = "has_reference" then ⟨i, p, sv, dsem, dstr, some v⟩
  else ⟨i, p, sv, dsem, dstr, ref⟩

/-- `ExeKG.parse_data_entity_by_iri` (`exe_kg.py` lines 652-701): resolve the
node's parent class against `DataEntity` (failure returns `None`); resolve
the optional reference target (defaulting to the node itself); pre-set
`has_reference` to the target's short name; then fold the generic
field-population rule over the triples of the *target* IRI.  The fuel bounds
the recursion through nested data entities (Python's call stack); it is
never exhausted on the graphs the library constructs.  The per-value
conversion (`property_value_to_field_value`, lines 630-650) is inlined in
the fold so that the recursion is structural on the fuel; the wrapper
definition below restates it and agrees definitionally. -/
def parse_data_entity_by_iri : Nat → Graph → String → String → Option PDataEntity
| 0, _, _, _ => none
| fuel0 + 1, g, top_ns, in_out_data_entity_iri =>
  match entity_parent g in_out_data_entity_iri (top_ns ++ "DataEntity") with
  | none => none
  | some data_entity_parent_iri =>
    let data_entity_ref_iri :=
      match data_entity_reference g top_ns in_out_data_entity_iri with
      | none => in_out_data_entity_iri
      | some r => r
    let de0 : PDataEntity :=
      ⟨in_out_data_entity_iri, data_entity_parent_iri,
       none, none, none, some (.str (fragment data_entity_ref_iri))⟩
    some ((g.filter (fun t => t.subj == data_entity_ref_iri)).foldl
      (fun de t =>
        let field_name := property_name_to_field_name t.pred
        if DATA_ENTITY_SETTABLE.contains field_name && field_name != "type" then
          set_de_field de field_name
            (if (t.obj.text).data.contains '#' then
              match parse_data_entity_by_iri fuel0 g top_ns t.obj.text with
              | none => .str t.obj.text
              | some d => .de d
            else .str t.obj.text)
        else de)
      de0)

/-- `ExeKG.property_value_to_field_value` (`exe_kg.py` lines 630-650): a
value containing `#` is tried as a data entity IRI; a successful parse gives
a nested `DataEntity` object, everything else is returned as the plain
string. -/
def property_value_to_field_value (fuel : Nat) (g : Graph) (top_ns : String)
    (property_value : String) : FieldValue :=
  if property_value.data.contains '#' then
    match parse_data_entity_by_iri fuel g top_ns property_value with
    | none => .str property_value
    | some de => .de de
  else .str property_value

/-! ### `ExeKG.parse_task_by_iri` and `ExeKG.execute_pipeline` -/

/-- Which of the three implementation modules a class was found in. -/
inductive Registry where
| visu
| stats
| ml
deriving Repr, DecidableEq

/-- Modelled from the spec: the implementation modules
`tasks.visual_tasks`, `tasks.statistic_tasks`, `tasks.ml_tasks` are not
under `src/`.  Spec §4.4: three implementation registries searched in fixed
priority order; `getattr(module, class_name, None)` becomes membership of
the class name in the module's list of exported class names. -/
structure Registries where
  visual_tasks : List String
  statistic_tasks : List String
  ml_tasks : List String
deriving Repr, DecidableEq

/-- The implementation-resolution chain of `ExeKG.parse_task_by_iri`
(`exe_kg.py` lines 741-746): try `visual_tasks`, then `statistic_tasks`,
then `ml_tasks`; first module exporting the class name wins; `none` when all
three misses leave `Class` as Python `None`. -/
def resolve_implementation (r : Registries) (class_name : String) : Option Registry :=
  if r.visual_tasks.contains class_name then some .visu
  else if r.statistic_tasks.contains class_name then some .stats
  else if r.ml_tasks.contains class_name then some .ml
  else none

/-- Modelled from the spec: `get_method_by_task_iri` from the missing
`utils.query_utils`.  Spec §4.3: "method-of(taskIRI) → the method Entity
attached to that task, or none".  Returns the first object of a triple on
the task that is an instance of a subclass of `AtomicMethod`, together with
its `.type` (the short name of its parent class). -/
def get_method_by_task_iri (g : Graph) (top_ns task_iri : String) :
    Option (String × String) :=
  (g.filterMap (fun t =>
    if t.subj == task_iri then
      match t.obj with
      | .iri m =>
        match entity_parent g m (top_ns ++ "AtomicMethod") with
        | some mp => some (m, fragment mp)
        | none => none
      | .lit _ _ => none
    else none)).head?

/-- A task object as reconstructed by `parse_task_by_iri`: IRI, parent class
IRI, the resolved implementation (class name and registry), and the fields
populated by the generic rule.  The Python object additionally stores the
canvas argument passed to its constructor; the execution trace records that
argument separately. -/
structure PTask where
  iri : String
  parent_iri : String
  class_name : String
  registry : Registry
  has_input : List FieldValue := []
  has_output : List FieldValue := []
  has_next_task : Option FieldValue := none

/-- `Entity.type`: the short name of the parent class. -/
def PTask.type (t : PTask) : String := fragment t.parent_iri

/-- The attributes of a parsed task object that the generic predicate
mapping can reach, plus the reserved `type` attribute; membership embeds the
parser's `hasattr` test (spec §3 lists the Task fields; `input_dict` /
`output_dict` / `iri` / `name` / `parent_entity` are never the image of a
schema predicate under the modelled naming scheme). -/
def TASK_SETTABLE : List String :=
  ["type", "has_input", "has_output", "has_next_task"]

/-- The per-triple assignment of `parse_task_by_iri` (`exe_kg.py` lines
760-765): `has_input` and `has_output` accumulate by appending, every other
settable field is overwritten. -/
def set_task_field (t : PTask) (fn : String) (v : FieldValue) : PTask :=
  if fn = "has_input" then { t with has_input := t.has_input ++ [v] }
  else if fn = "has_output" then { t with has_output := t.has_output ++ [v] }
  else if fn = "has_next_task" then { t with has_next_task := some v }
  else t

/-- The fatal outcomes of `ExeKG.parse_task_by_iri`:
`malformedGraph` — the parent-class query failed, the code prints a
diagnostic naming the task IRI and calls `exit(1)` (lines 724-726);
`methodAttributeError` — the method query returned `None`, the code prints a
diagnostic naming the task IRI (line 738) and then dies with
`AttributeError` on `method.type`;
`noneTypeNotCallable` — no registry exports the concatenated class name, so
`Class` is `None` and `Class(...)` dies with
`TypeError: 'NoneType' object is not callable`, a diagnostic that carries no
task IRI and no type names (lines 741-752). -/
inductive ParseError where
| malformedGraph (task_iri : String)
| methodAttributeError (task_iri : String)
| noneTypeNotCallable
deriving Repr, DecidableEq

/-- The task IRI carried by the diagnostic of a fatal parse outcome, if any:
the `TypeError` of the unresolvable-implementation branch names nothing. -/
def ParseError.named_task_iri : ParseError → Option String
| .malformedGraph i => some i
| .methodAttributeError i => some i
| .noneTypeNotCallable => none

/-- The per-triple assignment step of the generic field-population fold of
`parse_task_by_iri` (`exe_kg.py` lines 754-765): map the predicate to a
field name; skip it unless the instance declares the field and it is not the
reserved `type` field; otherwise convert the value and set the field. -/
def task_fold_step (fuel : Nat) (g : Graph) (top_ns : String) (task : PTask)
    (t : Triple) : PTask :=
  let field_name := property_name_to_field_name t.pred
  if TASK_SETTABLE.contains field_name && field_name != "type" then
    set_task_field task field_name
      (property_value_to_field_value fuel g top_ns t.obj.text)
  else task

/-- `ExeKG.parse_task_by_iri` (`exe_kg.py` lines 703-767): resolve the
task's parent class against `AtomicTask` (fatal if absent), fetch its
attached method, concatenate `task.type` and `method.type` into the
implementation class name, resolve it across the three registries, construct
the implementation object (passing the canvas argument when one is active —
the argument does not alter the parsed fields), and fold the generic
field-population rule over the triples of the task IRI. -/
def parse_task_by_iri (fuel : Nat) (g : Graph) (top_ns : String) (r : Registries)
    (task_iri : String) : Except ParseError PTask :=
  match entity_parent g task_iri (top_ns ++ "AtomicTask") with
  | none => .error (.malformedGraph task_iri)
  | some task_parent_iri =>
    match get_method_by_task_iri g top_ns task_iri with
    | none => .error (.methodAttributeError task_iri)
    | some method =>
      let class_name := fragment task_parent_iri ++ method.2
      match resolve_implementation r class_name with
      | none => .error .noneTypeNotCallable
      | some reg =>
        let t0 : PTask :=
          { iri := task_iri, parent_iri := task_parent_iri,
            class_name := class_name, registry := reg }
        .ok ((g.filter (fun t => t.subj == task_iri)).foldl
          (task_fold_step fuel g top_ns) t0)

/-- Modelled from the spec: `get_pipeline_and_first_task_iri` from the
missing `utils.query_utils`.  Spec §4.3: "pipeline-entry(graph) →
(pipelineIRI, inputDataPath, firstTaskIRI)".  Locates the Pipeline
instance, its recorded input data path, and the object of its
`hasStartTask` triple. -/
def get_pipeline_and_first_task_iri (g : Graph) (top_ns : String) :
    Option (String × String × Option String) :=
  match (g.filterMap (fun t =>
      if t.pred == rdf_type && t.obj == RDFNode.iri (top_ns ++ "Pipeline")
      then some t.subj else none)).head? with
  | none => none
  | some p =>
    let path := ((g.filterMap (fun t =>
      if t.subj == p && t.pred == predInputDataPath top_ns
      then some t.obj.text else none)).head?).getD ""
    let first := (g.filterMap (fun t =>
      if t.subj == p && t.pred == predHasStartTask top_ns then
        match t.obj with
        | .iri o => some o
        | .lit _ _ => none
      else none)).head?
    some (p, path, first)

/-- One iteration of the execution loop, as recorded in the trace: the task
IRI taken up, the canvas context passed into `parse_task_by_iri` for it, and
the parsed task object. -/
structure ExecStep where
  task_iri : String
  canvas_in : Option PTask
  task : PTask

/-- The outcome of `ExeKG.execute_pipeline`: the ordered trace of executed
tasks and the final shared output map, a fatal parse outcome with the trace
up to it, or fuel exhaustion (the Python `while` loop never terminates on a
cyclic next-chain; the fuel bounds it). -/
inductive ExecResult where
| done (steps : List ExecStep) (outputs : List (String × String))
| fatal (e : ParseError) (steps : List ExecStep)
| outOfFuel (steps : List ExecStep)

/-- The trace of an execution outcome. -/
def ExecResult.steps : ExecResult → List ExecStep
| .done s _ => s
| .fatal _ s => s
| .outOfFuel s => s

/-- The value of `next_task.has_next_task` as the loop head consumes it: the
IRI string it holds (a parsed `DataEntity` in that field — impossible for the
graphs the library builds, since tasks are not `DataEntity` instances — would
contribute its IRI). -/
def task_next_iri (t : PTask) : Option String :=
  match t.has_next_task with
  | none => none
  | some (.str s) => some s
  | some (.de d) => some d.iri

/-- The `while next_task_iri is not None` loop of `ExeKG.execute_pipeline`
(`exe_kg.py` lines 779-788).  `run` stands for the out-of-scope
`run_method` of the concrete task implementations (its returned named
outputs, or Python-falsy none); a returned map is merged into the shared
output dict.  After running, a task whose `.type` is `"CanvasTask"` becomes
the new canvas context; the loop advances to the task's `has_next_task`
value and stops when it is absent. -/
def execute_loop (pfuel : Nat) (g : Graph) (top_ns : String) (r : Registries)
    (run : PTask → List (String × String) → Option (List (String × String))) :
    Nat → Option String → Option PTask → List (String × String) → List ExecStep →
    ExecResult
| _, none, _, outputs, steps => .done steps.reverse outputs
| 0, some _, _, _, steps => .outOfFuel steps.reverse
| fuel + 1, some task_iri, canvas_method, task_output_dict, steps =>
  match parse_task_by_iri pfuel g top_ns r task_iri with
  | .error e => .fatal e steps.reverse
  | .ok next_task =>
    let task_output_dict1 :=
      match run next_task task_output_dict with
      | some output => output.foldl (fun d kv => dict_set d kv.1 kv.2) task_output_dict
      | none => task_output_dict
    let canvas_method1 :=
      if next_task.type = "CanvasTask" then some next_task else canvas_method
    execute_loop pfuel g top_ns r run fuel (task_next_iri next_task) canvas_method1
      task_output_dict1
      (⟨task_iri, canvas_method, next_task⟩ :: steps)

/-- `ExeKG.execute_pipeline` (`exe_kg.py` lines 769-788): locate the
pipeline entry (the loading of the input CSV is out-of-scope I/O), then run
the task chain starting from the first task with an empty shared output map
and no canvas context. -/
def execute_pipeline (pfuel lfuel : Nat) (g : Graph) (top_ns : String) (r : Registries)
    (run : PTask → List (String × String) → Option (List (String × String))) :
    Option ExecResult :=
  match get_pipeline_and_first_task_iri g top_ns with
  | none => none
  | some entry => some (execute_loop pfuel g top_ns r run lfuel entry.2.2 none [] [])

/-! ### Helper lemmas: association-list dictionaries -/

theorem lookup_cons_eq_if {α : Type} (k a : String) (b : α) (es : List (String × α)) :
    List.lookup k ((a, b) :: es) = if k = a then some b else List.lookup k es := by
  rw [List.lookup_cons]
  by_cases h : k = a
  · simp [h]
  · simp [h, beq_eq_false_iff_ne.mpr h]

theorem map_replace_lookup {α : Type} (k : String) (v : α) :
    ∀ (d : List (String × α)), d.any (fun p => p.1 = k) = true →
      (d.map (fun p => if p.1 = k then (k, v) else p)).lookup k = some v := by
  intro d
  induction d with
  | nil => simp
  | cons hd tl ih =>
    rcases hd with ⟨a, b⟩
    intro h
    by_cases hk : a = k
    · simp [hk, lookup_cons_eq_if]
    · have h' : tl.any (fun p => p.1 = k) = true := by
        simpa [List.any_cons, hk] using h
      have hka : ¬ k = a := fun hx => hk hx.symm
      simpa [hk, lookup_cons_eq_if, hka] using ih h'

theorem lookup_dict_set_self {α : Type} (d : List (String × α)) (k : String) (v : α) :
    (dict_set d k v).lookup k = some v := by
  unfold dict_set
  by_cases h : d.any (fun p => p.1 = k) = true
  · simpa [h] using map_replace_lookup k v d h
  · simp only [h, if_false]
    induction d with
    | nil => simp [lookup_cons_eq_if]
    | cons hd tl ih =>
      rcases hd with ⟨a, b⟩
      have hk : ¬ a = k := by
        intro hk
        exact h (by simp [List.any_cons, hk])
      have h' : ¬ tl.any (fun p => p.1 = k) = true := by
        intro h'
        exact h (by simp [List.any_cons, h'])
      have hka : ¬ k = a := fun hx => hk hx.symm
      simpa [List.cons_append, lookup_cons_eq_if, hka] using ih h'

theorem lookup_dict_set_ne {α : Type} (d : List (String × α)) (k k' : String) (v : α)
    (hne : k' ≠ k) : (dict_set d k v).lookup k' = d.lookup k' := by
  unfold dict_set
  by_cases h : d.any (fun p => p.1 = k) = true
  · simp only [h, if_true]
    clear h
    induction d with
    | nil => simp
    | cons hd tl ih =>
      rcases hd with ⟨a, b⟩
      by_cases hk : a = k
      · subst hk
        simp [lookup_cons_eq_if, hne, ih]
      · by_cases he : k' = a
        · simp [lookup_cons_eq_if, he, hk, fun hx : a = k => hk hx]
        · simp [lookup_cons_eq_if, he, hk, ih]
  · simp only [h, if_false]
    induction d with
    | nil => simp [lookup_cons_eq_if, hne]
    | cons hd tl ih =>
      rcases hd with ⟨a, b⟩
      have h' : ¬ tl.any (fun p => p.1 = k) = true := by
        intro h'
        exact h (by simp [List.any_cons, h'])
      by_cases he : k' = a
      · simp [List.cons_append, lookup_cons_eq_if, he]
      · simpa [List.cons_append, lookup_cons_eq_if, he] using ih h'

theorem lookup_seed_counter_dict (subclass_iris : List String) (ty : String)
    (hty : ty ∈ subclass_iris.map fragment) :
    (seed_counter_dict subclass_iris).lookup ty = some 1 := by
  have key : ∀ (l : List String) (d : CounterDict),
      (l.foldl (fun d iri => dict_set d (fragment iri) 1) d).lookup ty
        = if l.any (fun iri => fragment iri = ty) then some 1 else d.lookup ty := by
    intro l
    induction l with
    | nil => intro d; simp
    | cons s rest ih =>
      intro d
      by_cases hs : fragment s = ty
      · by_cases hr : rest.any (fun iri => fragment iri = ty) = true
        · simp [List.foldl_cons, ih, hs, hr, List.any_cons]
        · simp [List.foldl_cons, ih, hr, List.any_cons, hs, lookup_dict_set_self]
      · by_cases hr : rest.any (fun iri => fragment iri = ty) = true
        · simp [List.foldl_cons, ih, hs, hr, List.any_cons]
        · simp [List.foldl_cons, ih, hs, hr, List.any_cons,
            lookup_dict_set_ne _ _ _ _ (fun hx => hs hx.symm)]
  have hany : subclass_iris.any (fun iri => fragment iri = ty) = true := by
    rcases List.mem_map.mp hty with ⟨iri, hmem, hfr⟩
    exact List.any_eq_true.mpr ⟨iri, hmem, by simp [hfr]⟩
  unfold seed_counter_dict
  rw [key, hany]
  simp

/-! ### Helper lemmas: decimal numerals (`str(counter)` in Python) are injective -/

/-- Decoder for the digit characters produced by `Nat.toDigitsCore` in base 10. -/
def decodeDigits (l : List Char) : Nat :=
  l.foldl (fun a c => 10 * a + (c.toNat - 48)) 0

theorem toDigitsCore_append (b : Nat) :
    ∀ (f n : Nat) (l : List Char),
      Nat.toDigitsCore b f n l = Nat.toDigitsCore b f n [] ++ l := by
  intro f
  induction f with
  | zero => intro n l; simp [Nat.toDigitsCore]
  | succ f ih =>
    intro n l
    simp only [Nat.toDigitsCore]
    by_cases h : n / b = 0
    · simp [h]
    · simp only [h, if_false]
      rw [ih (n / b) ((n % b).digitChar :: l), ih (n / b) [(n % b).digitChar]]
      simp

theorem digitChar_toNat (k : Nat) (hk : k < 10) : (Nat.digitChar k).toNat = 48 + k := by
  interval_cases k <;> rfl

theorem decodeDigits_toDigitsCore :
    ∀ (f n : Nat), n < f → decodeDigits (Nat.toDigitsCore 10 f n []) = n := by
  intro f
  induction f with
  | zero => intro n h; omega
  | succ f ih =>
    intro n h
    simp only [Nat.toDigitsCore]
    by_cases hd : n / 10 = 0
    · have hn : n < 10 := by omega
      simp only [hd, if_true, decodeDigits, List.foldl_cons, List.foldl_nil,
        Nat.mod_eq_of_lt hn, Nat.mul_zero, Nat.zero_add]
      rw [digitChar_toNat n hn]
      omega
    · simp only [hd, if_false]
      rw [toDigitsCore_append]
      have hdiv : n / 10 < f := by
        have h1 : n / 10 < n := Nat.div_lt_self (by omega) (by norm_num)
        omega
      simp only [decodeDigits, List.foldl_append]
      have := ih (n / 10) hdiv
      simp only [decodeDigits] at this
      rw [this]
      simp [digitChar_toNat (n % 10) (Nat.mod_lt _ (by norm_num))]
      omega

theorem nat_repr_injective : Function.Injective Nat.repr := by
  intro m n h
  have hdata : (Nat.toDigits 10 m) = (Nat.toDigits 10 n) := by
    have : (Nat.toDigits 10 m).asString.data = (Nat.toDigits 10 n).asString.data := by
      rw [show (Nat.toDigits 10 m).asString = Nat.repr m from rfl,
          show (Nat.toDigits 10 n).asString = Nat.repr n from rfl, h]
    simpa [List.asString] using this
  have hm := decodeDigits_toDigitsCore (m + 1) m (by omega)
  have hn := decodeDigits_toDigitsCore (n + 1) n (by omega)
  simp only [Nat.toDigits] at hdata
  rw [← hm, ← hn, hdata]

theorem append_repr_injective (t : String) : Function.Injective (fun k => t ++ Nat.repr k) := by
  intro a b h
  have h1 : t ++ Nat.repr a = t ++ Nat.repr b := h
  have hdata : (t ++ Nat.repr a).data = (t ++ Nat.repr b).data := by rw [h1]
  rw [String.data_append, String.data_append] at hdata
  exact nat_repr_injective (String.ext (List.append_cancel_left hdata))

/-! ### Lemmas on the construction engine's loops -/

theorem bind_input_copies_iri_type (tns ie ien : String) (idx : Nat) :
    ∀ (des : List CDataEntity) (g : Graph) (task : CTask) (si : Nat),
      (bind_input_copies tns ie ien idx g task si des).2.iri = task.iri
      ∧ (bind_input_copies tns ie ien idx g task si des).2.type = task.type := by
  intro des
  induction des with
  | nil => intro g task si; exact ⟨rfl, rfl⟩
  | cons de rest ih =>
    intro g task si
    simpa [bind_input_copies] using ih _ _ _

theorem add_inputs_loop_ok (tns : String) (idx : Nat)
    (bindings : List (String × List CDataEntity)) :
    ∀ (l : List (String × String)) (g : Graph) (task : CTask),
      (∀ pr ∈ l, (bindings.lookup (fragment pr.2)).isSome) →
      ∃ g' t', add_inputs_loop tns idx bindings g task l = .ok (g', t')
        ∧ t'.iri = task.iri ∧ t'.type = task.type := by
  intro l
  induction l with
  | nil => intro g task _; exact ⟨g, task, rfl, rfl, rfl⟩
  | cons pr rest ih =>
    intro g task h
    obtain ⟨des, hdes⟩ := Option.isSome_iff_exists.mp (h pr (by simp))
    have hpres := bind_input_copies_iri_type tns pr.2 (fragment pr.2) idx des g task 1
    obtain ⟨g2, t2, heq, hiri, htype⟩ :=
      ih (bind_input_copies tns pr.2 (fragment pr.2) idx g task 1 des).1
         (bind_input_copies tns pr.2 (fragment pr.2) idx g task 1 des).2
         (fun q hq => h q (List.mem_cons_of_mem _ hq))
    refine ⟨g2, t2, ?_, ?_, ?_⟩
    · simpa [add_inputs_loop, hdes] using heq
    · rw [hiri, hpres.1]
    · rw [htype, hpres.2]

theorem add_outputs_loop_iri_type (tns : String) (idx : Nat) :
    ∀ (l : List (String × String)) (g : Graph) (task : CTask),
      (add_outputs_loop tns idx g task l).2.iri = task.iri
      ∧ (add_outputs_loop tns idx g task l).2.type = task.type := by
  intro l
  induction l with
  | nil => intro g task; exact ⟨rfl, rfl⟩
  | cons pr rest ih =>
    intro g task
    simpa [add_outputs_loop] using ih _ _

theorem add_properties_loop_ok (ti : String) (dp : List (String × String)) :
    ∀ (l : List (String × String)) (g : Graph),
      (∀ pr ∈ l, (dp.lookup (fragment pr.1)).isSome) →
      ∃ g', add_properties_loop ti dp g l = .ok g' := by
  intro l
  induction l with
  | nil => intro g _; exact ⟨g, rfl⟩
  | cons pr rest ih =>
    intro g h
    obtain ⟨v, hv⟩ := Option.isSome_iff_exists.mp (h pr (by simp))
    obtain ⟨g', hg'⟩ := ih (add_literal g ti pr.1 v pr.2)
      (fun q hq => h q (List.mem_cons_of_mem _ hq))
    exact ⟨g', by simpa [add_properties_loop, hv] using hg'⟩

theorem add_task_ok_shape (tns bns vns : String) (st : ConsState) (ty mty : String)
    (bindings : List (String × List CDataEntity)) (dp : List (String × String))
    (vflag : Bool)
    (inputResults outputResults methodResults property_list : List (String × String))
    (c m : Nat)
    (hc : st.task_type_dict.lookup ty = some c)
    (hm : st.method_type_dict.lookup mty = some m)
    (hbind : ∀ pr ∈ inputResults, (bindings.lookup (fragment pr.2)).isSome)
    (hmeth : (methodResults.find? (fun pr => fragment pr.2 = mty)).isSome)
    (hprops : ∀ pr ∈ property_list, (dp.lookup (fragment pr.1)).isSome) :
    ∃ st' t,
      add_task tns bns vns st ty bindings mty dp vflag
        inputResults outputResults methodResults property_list = .ok st' t
      ∧ t.iri = bns ++ (ty ++ Nat.repr c)
      ∧ t.type = ty
      ∧ st'.task_type_dict = dict_set st.task_type_dict ty (c + 1)
      ∧ st'.method_type_dict = dict_set st.method_type_dict mty (m + 1)
      ∧ st'.last_created_task_type = ty := by
  obtain ⟨chosen, hchosen⟩ := Option.isSome_iff_exists.mp hmeth
  unfold add_task add_inputs_to_task add_outputs_to_task
  simp only [name_instance, hc, lookup_dict_set_self, Nat.add_sub_cancel]
  obtain ⟨g2, t1, hinp, hiri1, htype1⟩ :=
    add_inputs_loop_ok tns c bindings inputResults
      (add_instance_from_parent_with_relation bns st.output_kg
        ((if vflag = true then vns else bns) ++ ty)
        (if st.last_created_task_type ≠ "Pipeline" then predHasNextTask tns
         else predHasStartTask tns)
        st.last_created_task_iri (ty ++ Nat.repr c)).1
      { iri :=
          (add_instance_from_parent_with_relation bns st.output_kg
            ((if vflag = true then vns else bns) ++ ty)
            (if st.last_created_task_type ≠ "Pipeline" then predHasNextTask tns
             else predHasStartTask tns)
            st.last_created_task_iri (ty ++ Nat.repr c)).2,
        type := ty }
      hbind
  simp only [hinp]
  simp only [htype1, lookup_dict_set_self, Nat.add_sub_cancel]
  obtain ⟨g3, t2, hout⟩ :
      ∃ g3 t2, add_outputs_loop tns c g2 t1 outputResults = (g3, t2) := ⟨_, _, rfl⟩
  have hpres := add_outputs_loop_iri_type tns c outputResults g2 t1
  rw [hout] at hpres
  simp only [hout]
  simp only [hchosen, hm]
  obtain ⟨g5, hg5⟩ := add_properties_loop_ok t2.iri dp property_list
    (add_instance_from_parent_with_relation bns g3
      ((if vflag = true then vns else bns) ++ mty) chosen.1 t2.iri
      (mty ++ Nat.repr m)).1 hprops
  simp only [hg5]
  refine ⟨_, t2, rfl, ?_, ?_, rfl, rfl, ?_⟩
  · rw [hpres.1, hiri1]
    rfl
  · rw [hpres.2, htype1]
  · rw [hpres.2, htype1]

/-- `ExeKG.add_task` iterated `n` times with the same arguments (the same
task type, bindings, method type, properties and resolver answers), as in a
construction session that appends `n` tasks of one type.  Returns the created
task objects in call order and the final session state; `none` as soon as one
call is fatal. -/
def iterate_add_task (tns bns vns : String) (ty : String)
    (bindings : List (String × List CDataEntity)) (mty : String)
    (dp : List (String × String)) (vflag : Bool)
    (inputResults outputResults methodResults property_list : List (String × String)) :
    Nat → ConsState → Option (List CTask × ConsState)
| 0, st => some ([], st)
| n + 1, st =>
  match add_task tns bns vns st ty bindings mty dp vflag
      inputResults outputResults methodResults property_list with
  | .fatal _ _ => none
  | .ok st1 t =>
    match iterate_add_task tns bns vns ty bindings mty dp vflag
        inputResults outputResults methodResults property_list n st1 with
    | none => none
    | some (ts, st2) => some (t :: ts, st2)

theorem iterate_add_task_names (tns bns vns : String) (ty mty : String)
    (bindings : List (String × List CDataEntity)) (dp : List (String × String))
    (vflag : Bool)
    (inputResults outputResults methodResults property_list : List (String × String))
    (hbind : ∀ pr ∈ inputResults, (bindings.lookup (fragment pr.2)).isSome)
    (hmeth : (methodResults.find? (fun pr => fragment pr.2 = mty)).isSome)
    (hprops : ∀ pr ∈ property_list, (dp.lookup (fragment pr.1)).isSome) :
    ∀ (N : Nat) (st : ConsState) (c m : Nat),
      st.task_type_dict.lookup ty = some c →
      st.method_type_dict.lookup mty = some m →
      ∃ ts st',
        iterate_add_task tns bns vns ty bindings mty dp vflag
          inputResults outputResults methodResults property_list N st = some (ts, st')
        ∧ ts.map CTask.iri = (List.range' c N).map (fun k => bns ++ (ty ++ Nat.repr k))
        ∧ st'.task_type_dict.lookup ty = some (c + N)
        ∧ st'.method_type_dict.lookup mty = some (m + N) := by
  intro N
  induction N with
  | zero =>
    intro st c m hc hm
    exact ⟨[], st, rfl, by simp, by simpa using hc, by simpa using hm⟩
  | succ n ih =>
    intro st c m hc hm
    obtain ⟨st1, t, heq, hiri, _, hdT, hdM, _⟩ :=
      add_task_ok_shape tns bns vns st ty mty bindings dp vflag
        inputResults outputResults methodResults property_list c m hc hm hbind hmeth hprops
    obtain ⟨ts, st2, hiter, hnames, hcT, hcM⟩ :=
      ih st1 (c + 1) (m + 1)
        (by rw [hdT]; exact lookup_dict_set_self _ _ _)
        (by rw [hdM]; exact lookup_dict_set_self _ _ _)
    refine ⟨t :: ts, st2, ?_, ?_, ?_, ?_⟩
    · simp only [iterate_add_task, heq, hiter]
    · simp only [List.range'_succ, List.map_cons, hnames, hiri, List.map_map]
    · simpa [Nat.add_assoc, Nat.add_comm 1 n] using hcT
    · simpa [Nat.add_assoc, Nat.add_comm 1 n] using hcM

/-! ### Concrete demonstration data shared by witnesses and counterexamples -/

/-- Top-level schema namespace used in concrete scenarios. -/
def demo_tns : String := "ds#"

/-- Bottom-level (Statistics) schema namespace used in concrete scenarios. -/
def demo_bns : String := "stats#"

/-- Visualization schema namespace used in concrete scenarios. -/
def demo_vns : String := "visu#"

/-- A pre-existing data entity bound as task input in concrete scenarios. -/
def demo_de1 : CDataEntity :=
  { iri := "stats#de1", parent_iri := "ds#DataEntity", source_value := some "colA",
    data_semantics := some "ds#TimeSeries", data_structure := some "ds#Vector" }

/-- Output graph and pipeline IRI after `create_pipeline_task`. -/
def demo_pipe : Graph × String := create_pipeline_task demo_tns demo_bns [] "pipe" "data.csv"

/-- The construction-session state right after `__init__` + `create_pipeline_task`:
both naming dicts seeded from the schema subclass lists, chain head = the pipeline. -/
def demo_st0 : ConsState :=
  { output_kg := demo_pipe.1,
    task_type_dict :=
      seed_counter_dict ["stats#Filter", "visu#CanvasTask", "visu#PlotTask"],
    method_type_dict :=
      seed_counter_dict ["stats#MeanFilter", "visu#CanvasMethod", "visu#PlotMethod"],
    last_created_task_iri := demo_pipe.2,
    last_created_task_type := "Pipeline" }

/-! ### C2 -/

/-- C2: in one construction session, `N` `add_task` calls with the same task
type allocate exactly the names `<type>1 … <type>N` (as instance IRIs under
the bottom-level namespace), in strictly increasing counter order and with no
name ever reused; both counter dicts are pre-seeded to 1 for every
schema-declared task and method type by `parse_kgs`, so `name_instance`
never fails for a recognized type. -/
theorem C2_task_naming (tns bns vns : String) (task_subs method_subs : List String)
    (ty mty : String)
    (bindings : List (String × List CDataEntity)) (dp : List (String × String))
    (vflag : Bool)
    (inputResults outputResults methodResults property_list : List (String × String))
    (st : ConsState) (N : Nat)
    (hseedT : st.task_type_dict = seed_counter_dict task_subs)
    (hseedM : st.method_type_dict = seed_counter_dict method_subs)
    (hty : ty ∈ task_subs.map fragment)
    (hmty : mty ∈ method_subs.map fragment)
    (hbind : ∀ pr ∈ inputResults, (bindings.lookup (fragment pr.2)).isSome)
    (hmeth : (methodResults.find? (fun pr => fragment pr.2 = mty)).isSome)
    (hprops : ∀ pr ∈ property_list, (dp.lookup (fragment pr.1)).isSome) :
    (∀ τ ∈ task_subs.map fragment,
        (seed_counter_dict task_subs).lookup τ = some 1
        ∧ (name_instance (seed_counter_dict task_subs) τ).isSome)
    ∧ (∀ μ ∈ method_subs.map fragment,
        (seed_counter_dict method_subs).lookup μ = some 1
        ∧ (name_instance (seed_counter_dict method_subs) μ).isSome)
    ∧ ∃ ts st',
        iterate_add_task tns bns vns ty bindings mty dp vflag
          inputResults outputResults methodResults property_list N st = some (ts, st')
        ∧ ts.map CTask.iri = (List.range' 1 N).map (fun k => bns ++ (ty ++ Nat.repr k))
        ∧ (ts.map CTask.iri).Nodup
        ∧ st'.task_type_dict.lookup ty = some (N + 1) := by
  refine ⟨?_, ?_, ?_⟩
  · intro τ hτ
    have h1 := lookup_seed_counter_dict task_subs τ hτ
    exact ⟨h1, by simp [name_instance, h1]⟩
  · intro μ hμ
    have h1 := lookup_seed_counter_dict method_subs μ hμ
    exact ⟨h1, by simp [name_instance, h1]⟩
  · obtain ⟨ts, st', hiter, hnames, hcT, _⟩ :=
      iterate_add_task_names tns bns vns ty mty bindings dp vflag
        inputResults outputResults methodResults property_list hbind hmeth hprops
        N st 1 1
        (by rw [hseedT]; exact lookup_seed_counter_dict task_subs ty hty)
        (by rw [hseedM]; exact lookup_seed_counter_dict method_subs mty hmty)
    have hinj : Function.Injective (fun k => bns ++ (ty ++ Nat.repr k)) := by
      intro a b h
      apply append_repr_injective (bns ++ ty)
      show (bns ++ ty) ++ Nat.repr a = (bns ++ ty) ++ Nat.repr b
      rw [String.append_assoc, String.append_assoc]
      exact h
    refine ⟨ts, st', hiter, hnames, ?_, by simpa [Nat.add_comm] using hcT⟩
    rw [hnames]
    exact (List.nodup_range' 1 N).map hinj

/-- Witness for C2: two `add_task` calls of type `Filter` in the demo session
allocate exactly `stats#Filter1`, `stats#Filter2`. -/
theorem C2_task_naming_witness :
    ∃ ts st',
      iterate_add_task demo_tns demo_bns demo_vns "Filter"
        [("DataInFilter", [demo_de1])] "MeanFilter" [("windowSize", "5")] false
        [("ds#hasInputP", "stats#DataInFilter")] [("ds#hasOutputP", "stats#DataOutFilter")]
        [("stats#hasFilterMethod", "stats#MeanFilter")] [("stats#windowSize", "xsd#int")]
        2 demo_st0 = some (ts, st')
      ∧ ts.map CTask.iri =
          (List.range' 1 2).map (fun k => demo_bns ++ ("Filter" ++ Nat.repr k))
      ∧ (ts.map CTask.iri).Nodup
      ∧ st'.task_type_dict.lookup "Filter" = some (2 + 1) :=
  (C2_task_naming demo_tns demo_bns demo_vns
    ["stats#Filter", "visu#CanvasTask", "visu#PlotTask"]
    ["stats#MeanFilter", "visu#CanvasMethod", "visu#PlotMethod"]
    "Filter" "MeanFilter" [("DataInFilter", [demo_de1])] [("windowSize", "5")] false
    [("ds#hasInputP", "stats#DataInFilter")] [("ds#hasOutputP", "stats#DataOutFilter")]
    [("stats#hasFilterMethod", "stats#MeanFilter")] [("stats#windowSize", "xsd#int")]
    demo_st0 2 rfl rfl (by decide) (by decide) (by decide) (by decide) (by decide)).2.2

/-! ### C7 -/

/-- The domain-specific schema entries scanned by the detection loop (the
loop skips "Data Science" and always-loaded "Visualization"). -/
def domain_schemas : List SchemaInfo :=
  KG_SCHEMAS.filter (fun s => s.name ≠ "Data Science" ∧ s.name ≠ "Visualization")

/-- The Visualization schema entry of `KG_SCHEMAS`. -/
def visu_schema_info : SchemaInfo :=
  ⟨"Visualization", "visu",
   "https://raw.githubusercontent.com/nsai-uio/ExeKGOntology/main/visu_exeKGOntology.ttl#"⟩

/-- C7: loading a persisted pipeline auto-detects the bottom-level schema
from the graph's (prefix, namespace) bindings; any schema selected has its
binding present and is either domain-specific or Visualization; the
Visualization schema is selected only when no domain-specific schema's
binding is present; and the load is fatal (`exit(1)`, embedded as `none`)
exactly when neither any domain-specific binding nor the Visualization
binding is present. -/
theorem C7_bottom_level_schema_detection (all_ns : List (String × String)) :
    (∀ s, detect_bottom_level_schema all_ns = some s →
        (s.pfx, s.ns) ∈ all_ns ∧ (s ∈ domain_schemas ∨ s = visu_schema_info))
    ∧ (detect_bottom_level_schema all_ns = some visu_schema_info →
        ∀ s ∈ domain_schemas, (s.pfx, s.ns) ∉ all_ns)
    ∧ (detect_bottom_level_schema all_ns = none ↔
        (∀ s ∈ domain_schemas, (s.pfx, s.ns) ∉ all_ns)
        ∧ (visu_schema_info.pfx, visu_schema_info.ns) ∉ all_ns) := by
  have hdom : domain_schemas =
      [⟨"Statistics", "stats",
        "https://raw.githubusercontent.com/nsai-uio/ExeKGOntology/main/stats_exeKGOntology.ttl#"⟩,
       ⟨"Machine Learning", "ml",
        "https://raw.githubusercontent.com/nsai-uio/ExeKGOntology/main/ml_exeKGOntology.ttl#"⟩] := by
    decide
  by_cases h1 : ("stats",
      "https://raw.githubusercontent.com/nsai-uio/ExeKGOntology/main/stats_exeKGOntology.ttl#")
      ∈ all_ns
  · have hdet : detect_bottom_level_schema all_ns = some ⟨"Statistics", "stats",
        "https://raw.githubusercontent.com/nsai-uio/ExeKGOntology/main/stats_exeKGOntology.ttl#"⟩ := by
      simp [detect_bottom_level_schema, KG_SCHEMAS, List.find?, h1]
    refine ⟨?_, ?_, ?_, ?_⟩
    · intro s hs
      rw [hdet] at hs
      obtain rfl := Option.some.inj hs
      exact ⟨h1, Or.inl (by rw [hdom]; simp)⟩
    · intro hs
      rw [hdet] at hs
      exact absurd (Option.some.inj hs) (by decide)
    · intro hs
      rw [hdet] at hs
      cases hs
    · intro ⟨hd, _⟩
      exact absurd h1 (hd ⟨"Statistics", "stats",
        "https://raw.githubusercontent.com/nsai-uio/ExeKGOntology/main/stats_exeKGOntology.ttl#"⟩
        (by rw [hdom]; simp))
  · by_cases h2 : ("ml",
        "https://raw.githubusercontent.com/nsai-uio/ExeKGOntology/main/ml_exeKGOntology.ttl#")
        ∈ all_ns
    · have hdet : detect_bottom_level_schema all_ns = some ⟨"Machine Learning", "ml",
          "https://raw.githubusercontent.com/nsai-uio/ExeKGOntology/main/ml_exeKGOntology.ttl#"⟩ := by
        simp [detect_bottom_level_schema, KG_SCHEMAS, List.find?, h1, h2]
      refine ⟨?_, ?_, ?_, ?_⟩
      · intro s hs
        rw [hdet] at hs
        obtain rfl := Option.some.inj hs
        exact ⟨h2, Or.inl (by rw [hdom]; simp)⟩
      · intro hs
        rw [hdet] at hs
        exact absurd (Option.some.inj hs) (by decide)
      · intro hs
        rw [hdet] at hs
        cases hs
      · intro ⟨hd, _⟩
        exact absurd h2 (hd ⟨"Machine Learning", "ml",
          "https://raw.githubusercontent.com/nsai-uio/ExeKGOntology/main/ml_exeKGOntology.ttl#"⟩
          (by rw [hdom]; simp))
    · by_cases h3 : ("visu",
          "https://raw.githubusercontent.com/nsai-uio/ExeKGOntology/main/visu_exeKGOntology.ttl#")
          ∈ all_ns
      · have hdet : detect_bottom_level_schema all_ns = some visu_schema_info := by
          simp [detect_bottom_level_schema, KG_SCHEMAS, List.find?, h1, h2, h3,
            visu_schema_info]
        refine ⟨?_, ?_, ?_, ?_⟩
        · intro s hs
          rw [hdet] at hs
          obtain rfl := Option.some.inj hs
          exact ⟨h3, Or.inr rfl⟩
        · intro _ s hsd
          rw [hdom] at hsd
          simp only [List.mem_cons, List.not_mem_nil, or_false] at hsd
          rcases hsd with hsd | hsd
          · subst hsd
            exact h1
          · subst hsd
            exact h2
        · intro hs
          rw [hdet] at hs
          cases hs
        · intro ⟨_, hv⟩
          exact absurd h3 hv
      · have hnone : detect_bottom_level_schema all_ns = none := by
          simp [detect_bottom_level_schema, KG_SCHEMAS, List.find?, h1, h2, h3]
        refine ⟨?_, ?_, ?_, ?_⟩
        · intro s hs
          rw [hnone] at hs
          cases hs
        · intro hs
          rw [hnone] at hs
          cases hs
        · intro _
          refine ⟨?_, ?_⟩
          · intro s hsd
            rw [hdom] at hsd
            simp only [List.mem_cons, List.not_mem_nil, or_false] at hsd
            rcases hsd with hsd | hsd
            · subst hsd
              exact h1
            · subst hsd
              exact h2
          · exact h3
        · intro _
          exact hnone

/-- Witness for C7: a graph binding only the Visualization namespace selects
the Visualization schema, and so no domain-specific binding is present. -/
theorem C7_bottom_level_schema_detection_witness :
    ∀ s ∈ domain_schemas,
      (s.pfx, s.ns) ∉
        [("visu",
          "https://raw.githubusercontent.com/nsai-uio/ExeKGOntology/main/visu_exeKGOntology.ttl#")] :=
  (C7_bottom_level_schema_detection
    [("visu",
      "https://raw.githubusercontent.com/nsai-uio/ExeKGOntology/main/visu_exeKGOntology.ttl#")]).2.1
    (by decide)

/-! ### Graph monotonicity lemmas -/

theorem mem_gadd_of_mem {g : Graph} {t t' : Triple} (h : t ∈ g) : t ∈ gadd g t' := by
  unfold gadd
  by_cases h' : t' ∈ g
  · rw [if_pos h']
    exact h
  · simp [h', List.mem_append, h]

theorem mem_gadd_self (g : Graph) (t : Triple) : t ∈ gadd g t := by
  unfold gadd
  by_cases h : t ∈ g
  · simpa [h]
  · simp [h]

theorem mem_gaddAll_of_mem {g : Graph} {t : Triple} (ts : List Triple) (h : t ∈ g) :
    t ∈ gaddAll g ts := by
  induction ts generalizing g with
  | nil => exact h
  | cons t' rest ih => exact ih (mem_gadd_of_mem h)

theorem mem_gaddAll_self {t : Triple} : ∀ (ts : List Triple) (g : Graph), t ∈ ts →
    t ∈ gaddAll g ts := by
  intro ts
  induction ts with
  | nil => intro g h; cases h
  | cons t' rest ih =>
    intro g h
    rcases List.mem_cons.mp h with h | h
    · subst h
      exact mem_gaddAll_of_mem rest (mem_gadd_self g t)
    · exact ih _ h

theorem add_data_entity_instance_mono {g : Graph} {t : Triple} (tns : String)
    (de : CDataEntity) (h : t ∈ g) : t ∈ add_data_entity_instance g tns de :=
  mem_gaddAll_of_mem _ h

theorem add_and_attach_data_entity_mono {g : Graph} {t : Triple} (tns : String)
    (de : CDataEntity) (rel ti : String) (h : t ∈ g) :
    t ∈ add_and_attach_data_entity g tns de rel ti :=
  mem_gadd_of_mem (mem_gaddAll_of_mem _ h)

theorem bind_input_copies_mono (tns ie ien : String) (idx : Nat) :
    ∀ (des : List CDataEntity) (g : Graph) (task : CTask) (si : Nat) {t : Triple},
      t ∈ g → t ∈ (bind_input_copies tns ie ien idx g task si des).1 := by
  intro des
  induction des with
  | nil => intro g task si t h; exact h
  | cons de rest ih =>
    intro g task si t h
    exact ih _ _ _ (add_and_attach_data_entity_mono tns _ _ _
      (add_data_entity_instance_mono tns de h))

theorem add_inputs_loop_mono (tns : String) (idx : Nat)
    (bindings : List (String × List CDataEntity)) :
    ∀ (l : List (String × String)) (g g' : Graph) (task t' : CTask) {t : Triple},
      add_inputs_loop tns idx bindings g task l = .ok (g', t') → t ∈ g → t ∈ g' := by
  intro l
  induction l with
  | nil =>
    intro g g' task t' t heq h
    cases heq
    exact h
  | cons pr rest ih =>
    intro g g' task t' t heq h
    unfold add_inputs_loop at heq
    cases hdes : bindings.lookup (fragment pr.2) with
    | none => simp [hdes] at heq
    | some des =>
      simp only [hdes] at heq
      exact ih _ _ _ _ heq (bind_input_copies_mono tns _ _ idx des g task 1 h)

theorem add_outputs_loop_mono (tns : String) (idx : Nat) :
    ∀ (l : List (String × String)) (g : Graph) (task : CTask) {t : Triple},
      t ∈ g → t ∈ (add_outputs_loop tns idx g task l).1 := by
  intro l
  induction l with
  | nil => intro g task t h; exact h
  | cons pr rest ih =>
    intro g task t h
    exact ih _ _ (add_and_attach_data_entity_mono tns _ _ _ h)

theorem add_properties_loop_mono (ti : String) (dp : List (String × String)) :
    ∀ (l : List (String × String)) (g g' : Graph) {t : Triple},
      add_properties_loop ti dp g l = .ok g' → t ∈ g → t ∈ g' := by
  intro l
  induction l with
  | nil =>
    intro g g' t heq h
    cases heq
    exact h
  | cons pr rest ih =>
    intro g g' t heq h
    unfold add_properties_loop at heq
    cases hv : dp.lookup (fragment pr.1) with
    | none => simp [hv] at heq
    | some v =>
      simp only [hv] at heq
      exact ih _ _ heq (mem_gadd_of_mem h)

theorem add_instance_mem_type (ns : String) (g : Graph) (parent rel linked nm : String) :
    (⟨ns ++ nm, rdf_type, .iri parent⟩ : Triple)
      ∈ (add_instance_from_parent_with_relation ns g parent rel linked nm).1 :=
  mem_gaddAll_self _ _ (by simp)

theorem add_instance_mem_link (ns : String) (g : Graph) (parent rel linked nm : String) :
    (⟨linked, rel, .iri (ns ++ nm)⟩ : Triple)
      ∈ (add_instance_from_parent_with_relation ns g parent rel linked nm).1 :=
  mem_gaddAll_self _ _ (by simp)

theorem add_instance_mono (ns : String) (g : Graph) (parent rel linked nm : String)
    {tr : Triple} (h : tr ∈ g) :
    tr ∈ (add_instance_from_parent_with_relation ns g parent rel linked nm).1 :=
  mem_gaddAll_of_mem _ h

/-! ### C1 -/

/-- C1 (amended): when the requested method type matches none of the
schema-compatible (relation, method class) pairs, `add_task` terminates
fatally with the incompatible-method diagnostic naming both types — but the
output graph at that moment is *not* unchanged: it still contains every
pre-existing triple plus the already-committed triples of this very call
(the new task node's instance-of triple and its chain-link triple, along
with the input/output additions); only the method and property triples are
never reached. -/
theorem C1_incompatible_method_partial_triples (tns bns vns : String) (st : ConsState)
    (ty mty : String)
    (bindings : List (String × List CDataEntity)) (dp : List (String × String))
    (vflag : Bool)
    (inputResults outputResults methodResults property_list : List (String × String))
    (c : Nat)
    (hc : st.task_type_dict.lookup ty = some c)
    (hbind : ∀ pr ∈ inputResults, (bindings.lookup (fragment pr.2)).isSome)
    (hfind : methodResults.find? (fun pr => fragment pr.2 = mty) = none) :
    ∃ g_exit,
      add_task tns bns vns st ty bindings mty dp vflag
        inputResults outputResults methodResults property_list
        = .fatal (.incompatibleMethod ty mty) g_exit
      ∧ (∀ tr ∈ st.output_kg, tr ∈ g_exit)
      ∧ (⟨bns ++ (ty ++ Nat.repr c), rdf_type,
          .iri ((if vflag = true then vns else bns) ++ ty)⟩ : Triple) ∈ g_exit
      ∧ (⟨st.last_created_task_iri,
          (if st.last_created_task_type ≠ "Pipeline" then predHasNextTask tns
           else predHasStartTask tns),
          .iri (bns ++ (ty ++ Nat.repr c))⟩ : Triple) ∈ g_exit := by
  unfold add_task add_inputs_to_task add_outputs_to_task
  simp only [name_instance, hc, lookup_dict_set_self, Nat.add_sub_cancel]
  obtain ⟨g2, t1, hinp, hiri1, htype1⟩ :=
    add_inputs_loop_ok tns c bindings inputResults
      (add_instance_from_parent_with_relation bns st.output_kg
        ((if vflag = true then vns else bns) ++ ty)
        (if st.last_created_task_type ≠ "Pipeline" then predHasNextTask tns
         else predHasStartTask tns)
        st.last_created_task_iri (ty ++ Nat.repr c)).1
      { iri :=
          (add_instance_from_parent_with_relation bns st.output_kg
            ((if vflag = true then vns else bns) ++ ty)
            (if st.last_created_task_type ≠ "Pipeline" then predHasNextTask tns
             else predHasStartTask tns)
            st.last_created_task_iri (ty ++ Nat.repr c)).2,
        type := ty }
      hbind
  simp only [hinp]
  simp only [htype1, lookup_dict_set_self, Nat.add_sub_cancel]
  obtain ⟨g3, t2, hout⟩ :
      ∃ g3 t2, add_outputs_loop tns c g2 t1 outputResults = (g3, t2) := ⟨_, _, rfl⟩
  simp only [hout, hfind]
  have hmem3 : ∀ {tr : Triple},
      tr ∈ (add_instance_from_parent_with_relation bns st.output_kg
        ((if vflag = true then vns else bns) ++ ty)
        (if st.last_created_task_type ≠ "Pipeline" then predHasNextTask tns
         else predHasStartTask tns)
        st.last_created_task_iri (ty ++ Nat.repr c)).1 → tr ∈ g3 := by
    intro tr h
    have h2 := add_inputs_loop_mono tns c bindings inputResults _ _ _ _ hinp h
    have h3 := add_outputs_loop_mono tns c outputResults g2 t1 h2
    rw [hout] at h3
    exact h3
  refine ⟨g3, rfl, ?_, ?_, ?_⟩
  · intro tr htr
    exact hmem3 (add_instance_mono _ _ _ _ _ _ htr)
  · exact hmem3 (add_instance_mem_type bns st.output_kg _ _ _ _)
  · exact hmem3 (add_instance_mem_link bns st.output_kg _ _ _ _)

/-- The output graph at the moment the incompatible-method diagnostic kills
the process, in the concrete demo scenario. -/
def C1_graph_at_exit : Graph :=
  match add_task demo_tns demo_bns demo_vns demo_st0 "Filter"
      [("DataInFilter", [demo_de1])] "BogusMethod" [("windowSize", "5")] false
      [("ds#hasInputP", "stats#DataInFilter")] [("ds#hasOutputP", "stats#DataOutFilter")]
      [("stats#hasFilterMethod", "stats#MeanFilter")] [("stats#windowSize", "xsd#int")] with
  | .fatal _ g => g
  | .ok st _ => st.output_kg

/-- Counterexample to C1 as stated: a concrete `add_task` call with an
incompatible method type terminates with the incompatible-method diagnostic,
yet the output graph at that point differs from the pre-call graph — the new
task node's instance-of triple (among others) has already been committed. -/
theorem C1_counterexample :
    add_task demo_tns demo_bns demo_vns demo_st0 "Filter"
      [("DataInFilter", [demo_de1])] "BogusMethod" [("windowSize", "5")] false
      [("ds#hasInputP", "stats#DataInFilter")] [("ds#hasOutputP", "stats#DataOutFilter")]
      [("stats#hasFilterMethod", "stats#MeanFilter")] [("stats#windowSize", "xsd#int")]
      = .fatal (.incompatibleMethod "Filter" "BogusMethod") C1_graph_at_exit
    ∧ C1_graph_at_exit ≠ demo_st0.output_kg
    ∧ (⟨"stats#Filter1", rdf_type, .iri "stats#Filter"⟩ : Triple) ∈ C1_graph_at_exit
    ∧ (⟨"stats#Filter1", rdf_type, .iri "stats#Filter"⟩ : Triple) ∉ demo_st0.output_kg := by
  refine ⟨by decide, by decide, by decide, by decide⟩

/-- Witness for the amended C1 theorem at the demo scenario. -/
theorem C1_incompatible_method_partial_triples_witness :
    ∃ g_exit,
      add_task demo_tns demo_bns demo_vns demo_st0 "Filter"
        [("DataInFilter", [demo_de1])] "BogusMethod" [("windowSize", "5")] false
        [("ds#hasInputP", "stats#DataInFilter")] [("ds#hasOutputP", "stats#DataOutFilter")]
        [("stats#hasFilterMethod", "stats#MeanFilter")] [("stats#windowSize", "xsd#int")]
        = .fatal (.incompatibleMethod "Filter" "BogusMethod") g_exit
      ∧ (∀ tr ∈ demo_st0.output_kg, tr ∈ g_exit)
      ∧ (⟨demo_bns ++ ("Filter" ++ Nat.repr 1), rdf_type,
          .iri ((if false = true then demo_vns else demo_bns) ++ "Filter")⟩ : Triple) ∈ g_exit
      ∧ (⟨demo_st0.last_created_task_iri,
          (if demo_st0.last_created_task_type ≠ "Pipeline" then predHasNextTask demo_tns
           else predHasStartTask demo_tns),
          .iri (demo_bns ++ ("Filter" ++ Nat.repr 1))⟩ : Triple) ∈ g_exit :=
  C1_incompatible_method_partial_triples demo_tns demo_bns demo_vns demo_st0
    "Filter" "BogusMethod" [("DataInFilter", [demo_de1])] [("windowSize", "5")] false
    [("ds#hasInputP", "stats#DataInFilter")] [("ds#hasOutputP", "stats#DataOutFilter")]
    [("stats#hasFilterMethod", "stats#MeanFilter")] [("stats#windowSize", "xsd#int")]
    1 (by decide) (by decide) (by decide)

/-! ### C6 -/

theorem add_properties_loop_err (ti : String) (dp : List (String × String)) :
    ∀ (l : List (String × String)) (g : Graph),
      (∃ pr ∈ l, dp.lookup (fragment pr.1) = none) →
      ∃ pn g', add_properties_loop ti dp g l = .error (pn, g')
        ∧ dp.lookup pn = none := by
  intro l
  induction l with
  | nil =>
    intro g h
    obtain ⟨pr, hmem, _⟩ := h
    cases hmem
  | cons pr rest ih =>
    intro g h
    cases hv : dp.lookup (fragment pr.1) with
    | none =>
      exact ⟨fragment pr.1, g, by simp [add_properties_loop, hv], hv⟩
    | some v =>
      obtain ⟨q, hqmem, hq⟩ := h
      rcases List.mem_cons.mp hqmem with hq' | hq'
      · subst hq'
        rw [hq] at hv
        cases hv
      · obtain ⟨pn, g', heq, hpn⟩ := ih (add_literal g ti pr.1 v pr.2) ⟨q, hq', hq⟩
        exact ⟨pn, g', by simp [add_properties_loop, hv, heq], hpn⟩

theorem add_properties_loop_adds (ti : String) (dp : List (String × String)) :
    ∀ (l : List (String × String)) (g g' : Graph),
      add_properties_loop ti dp g l = .ok g' →
      ∀ pr ∈ l, ∀ v, dp.lookup (fragment pr.1) = some v →
        (⟨ti, pr.1, .lit v pr.2⟩ : Triple) ∈ g' := by
  intro l
  induction l with
  | nil =>
    intro g g' _ pr hmem
    cases hmem
  | cons pr0 rest ih =>
    intro g g' heq pr hmem v hv
    cases hv0 : dp.lookup (fragment pr0.1) with
    | none => simp [add_properties_loop, hv0] at heq
    | some v0 =>
      simp only [add_properties_loop, hv0] at heq
      rcases List.mem_cons.mp hmem with h | h
      · subst h
        rw [hv] at hv0
        obtain rfl := Option.some.inj hv0
        exact add_properties_loop_mono ti dp rest _ _ heq (mem_gadd_self g _)
      · exact ih _ _ heq pr h v hv

/-- C6: `add_task` dies with the missing-property `KeyError` (the spec's
MissingPropertyError) as soon as some data property declared (with
inheritance) for the chosen method class has no entry in the supplied
properties dict; when every declared property is supplied, the call succeeds
and each property value is attached to the *task* node as a literal whose
datatype is the property's declared range. -/
theorem C6_missing_property (tns bns vns : String) (st : ConsState) (ty mty : String)
    (bindings : List (String × List CDataEntity)) (dp : List (String × String))
    (vflag : Bool)
    (inputResults outputResults methodResults property_list : List (String × String))
    (c m : Nat)
    (hc : st.task_type_dict.lookup ty = some c)
    (hm : st.method_type_dict.lookup mty = some m)
    (hbind : ∀ pr ∈ inputResults, (bindings.lookup (fragment pr.2)).isSome)
    (hmeth : (methodResults.find? (fun pr => fragment pr.2 = mty)).isSome) :
    ((∃ pr ∈ property_list, dp.lookup (fragment pr.1) = none) →
      ∃ pn g_exit,
        add_task tns bns vns st ty bindings mty dp vflag
          inputResults outputResults methodResults property_list
          = .fatal (.missingProperty pn) g_exit
        ∧ dp.lookup pn = none)
    ∧ ((∀ pr ∈ property_list, (dp.lookup (fragment pr.1)).isSome) →
      ∃ st' t,
        add_task tns bns vns st ty bindings mty dp vflag
          inputResults outputResults methodResults property_list = .ok st' t
        ∧ ∀ pr ∈ property_list, ∀ v, dp.lookup (fragment pr.1) = some v →
            (⟨t.iri, pr.1, .lit v pr.2⟩ : Triple) ∈ st'.output_kg) := by
  obtain ⟨chosen, hchosen⟩ := Option.isSome_iff_exists.mp hmeth
  constructor
  · intro hmiss
    unfold add_task add_inputs_to_task add_outputs_to_task
    simp only [name_instance, hc, lookup_dict_set_self, Nat.add_sub_cancel]
    obtain ⟨g2, t1, hinp, hiri1, htype1⟩ :=
      add_inputs_loop_ok tns c bindings inputResults
        (add_instance_from_parent_with_relation bns st.output_kg
          ((if vflag = true then vns else bns) ++ ty)
          (if st.last_created_task_type ≠ "Pipeline" then predHasNextTask tns
           else predHasStartTask tns)
          st.last_created_task_iri (ty ++ Nat.repr c)).1
        { iri :=
            (add_instance_from_parent_with_relation bns st.output_kg
              ((if vflag = true then vns else bns) ++ ty)
              (if st.last_created_task_type ≠ "Pipeline" then predHasNextTask tns
               else predHasStartTask tns)
              st.last_created_task_iri (ty ++ Nat.repr c)).2,
          type := ty }
        hbind
    simp only [hinp]
    simp only [htype1, lookup_dict_set_self, Nat.add_sub_cancel]
    obtain ⟨g3, t2, hout⟩ :
        ∃ g3 t2, add_outputs_loop tns c g2 t1 outputResults = (g3, t2) := ⟨_, _, rfl⟩
    simp only [hout, hchosen, hm]
    obtain ⟨pn, g_exit, herr, hpn⟩ := add_properties_loop_err t2.iri dp property_list
      (add_instance_from_parent_with_relation bns g3
        ((if vflag = true then vns else bns) ++ mty) chosen.1 t2.iri
        (mty ++ Nat.repr m)).1 hmiss
    simp only [herr]
    exact ⟨pn, g_exit, rfl, hpn⟩
  · intro hprops
    unfold add_task add_inputs_to_task add_outputs_to_task
    simp only [name_instance, hc, lookup_dict_set_self, Nat.add_sub_cancel]
    obtain ⟨g2, t1, hinp, hiri1, htype1⟩ :=
      add_inputs_loop_ok tns c bindings inputResults
        (add_instance_from_parent_with_relation bns st.output_kg
          ((if vflag = true then vns else bns) ++ ty)
          (if st.last_created_task_type ≠ "Pipeline" then predHasNextTask tns
           else predHasStartTask tns)
          st.last_created_task_iri (ty ++ Nat.repr c)).1
        { iri :=
            (add_instance_from_parent_with_relation bns st.output_kg
              ((if vflag = true then vns else bns) ++ ty)
              (if st.last_created_task_type ≠ "Pipeline" then predHasNextTask tns
               else predHasStartTask tns)
              st.last_created_task_iri (ty ++ Nat.repr c)).2,
          type := ty }
        hbind
    simp only [hinp]
    simp only [htype1, lookup_dict_set_self, Nat.add_sub_cancel]
    obtain ⟨g3, t2, hout⟩ :
        ∃ g3 t2, add_outputs_loop tns c g2 t1 outputResults = (g3, t2) := ⟨_, _, rfl⟩
    simp only [hout, hchosen, hm]
    obtain ⟨g5, hg5⟩ := add_properties_loop_ok t2.iri dp property_list
      (add_instance_from_parent_with_relation bns g3
        ((if vflag = true then vns else bns) ++ mty) chosen.1 t2.iri
        (mty ++ Nat.repr m)).1 hprops
    simp only [hg5]
    refine ⟨_, t2, rfl, ?_⟩
    intro pr hmem v hv
    exact add_properties_loop_adds t2.iri dp property_list _ _ hg5 pr hmem v hv

/-- Witness for C6: the demo call with an empty properties dict dies on the
declared `windowSize` property. -/
theorem C6_missing_property_witness :
    ∃ pn g_exit,
      add_task demo_tns demo_bns demo_vns demo_st0 "Filter"
        [("DataInFilter", [demo_de1])] "MeanFilter" [] false
        [("ds#hasInputP", "stats#DataInFilter")] [("ds#hasOutputP", "stats#DataOutFilter")]
        [("stats#hasFilterMethod", "stats#MeanFilter")] [("stats#windowSize", "xsd#int")]
        = .fatal (.missingProperty pn) g_exit
      ∧ List.lookup pn ([] : List (String × String)) = none :=
  (C6_missing_property demo_tns demo_bns demo_vns demo_st0 "Filter" "MeanFilter"
    [("DataInFilter", [demo_de1])] [] false
    [("ds#hasInputP", "stats#DataInFilter")] [("ds#hasOutputP", "stats#DataOutFilter")]
    [("stats#hasFilterMethod", "stats#MeanFilter")] [("stats#windowSize", "xsd#int")]
    1 1 (by decide) (by decide) (by decide) (by decide)).1
    ⟨("stats#windowSize", "xsd#int"), by decide, by decide⟩

/-! ### C10 -/

theorem dict_set_dict_set {α : Type} (d : List (String × α)) (k : String) (v w : α) :
    dict_set (dict_set d k v) k w = dict_set d k w := by
  unfold dict_set
  by_cases h : d.any (fun p => p.1 = k) = true
  · have hany : (d.map (fun p => if p.1 = k then (k, v) else p)).any
        (fun p => p.1 = k) = true := by
      obtain ⟨p, hp, hpk⟩ := List.any_eq_true.mp h
      refine List.any_eq_true.mpr ⟨(k, v), List.mem_map.mpr ⟨p, hp, ?_⟩, by simp⟩
      simp [of_decide_eq_true hpk]
    simp only [h, if_true, hany, List.map_map]
    apply List.map_congr_left
    intro p _
    by_cases hpk : p.1 = k
    · simp [hpk]
    · simp [hpk]
  · have hany : (d ++ [(k, v)]).any (fun p => p.1 = k) = true := by
      refine List.any_eq_true.mpr ⟨(k, v), by simp, by simp⟩
    simp only [h, if_false, hany, if_true, List.map_append]
    have hd : d.map (fun p => if p.1 = k then (k, w) else p) = d := by
      conv_rhs => rw [← List.map_id d]
      apply List.map_congr_left
      intro p hp
      have hpk : ¬ p.1 = k := by
        intro hpk
        exact h (List.any_eq_true.mpr ⟨p, hp, by simp [hpk]⟩)
      simp [hpk]
    simp [hd]

/-- The bound-copy record built by one iteration of the inner input loop. -/
def input_copy (ie : String) (idx si : Nat) (ref : String) : CDataEntity :=
  { iri := ie ++ Nat.repr idx ++ "_" ++ Nat.repr si, parent_iri := ie,
    has_reference := some ref }

theorem bind_input_copies_dict (tns ie ien : String) (idx : Nat) :
    ∀ (des : List CDataEntity) (g : Graph) (task : CTask) (si : Nat) (dlast : CDataEntity),
      des.getLast? = some dlast →
      (bind_input_copies tns ie ien idx g task si des).2.input_dict
        = dict_set task.input_dict ien
            { iri := ie ++ Nat.repr idx ++ "_" ++ Nat.repr (si + des.length - 1),
              parent_iri := ie, has_reference := some dlast.iri } := by
  intro des
  induction des with
  | nil =>
    intro g task si dlast h
    cases h
  | cons de rest ih =>
    intro g task si dlast h
    cases rest with
    | nil =>
      obtain rfl : de = dlast := by simpa using h
      simp [bind_input_copies]
    | cons de2 rest2 =>
      have h' : (de2 :: rest2).getLast? = some dlast := by
        rw [← List.getLast?_cons_cons]
        exact h
      have hrec := ih
        (add_and_attach_data_entity (add_data_entity_instance g tns de) tns
          (input_copy ie idx si de.iri)
          (predHasInput tns) task.iri)
        { task with input_dict :=
            dict_set task.input_dict ien (input_copy ie idx si de.iri) }
        (si + 1) dlast h'
      have hstep : bind_input_copies tns ie ien idx g task si (de :: de2 :: rest2)
          = bind_input_copies tns ie ien idx
              (add_and_attach_data_entity (add_data_entity_instance g tns de) tns
                (input_copy ie idx si de.iri)
                (predHasInput tns) task.iri)
              { task with input_dict :=
                  dict_set task.input_dict ien (input_copy ie idx si de.iri) }
              (si + 1) (de2 :: rest2) := rfl
      rw [hstep, hrec]
      show dict_set (dict_set task.input_dict ien (input_copy ie idx si de.iri)) ien _ = _
      rw [dict_set_dict_set]
      have harith : si + 1 + (de2 :: rest2).length - 1
          = si + (de :: de2 :: rest2).length - 1 := by
        simp only [List.length_cons]
        omega
      rw [harith]

theorem bind_input_copies_attaches (tns ie ien : String) (idx : Nat) :
    ∀ (des : List CDataEntity) (g : Graph) (task : CTask) (si : Nat) (j : Nat)
      (hj : j < des.length),
      (⟨task.iri, predHasInput tns,
         .iri (ie ++ Nat.repr idx ++ "_" ++ Nat.repr (si + j))⟩ : Triple)
        ∈ (bind_input_copies tns ie ien idx g task si des).1
      ∧ (⟨ie ++ Nat.repr idx ++ "_" ++ Nat.repr (si + j), predHasReference tns,
          .iri (des.get ⟨j, hj⟩).iri⟩ : Triple)
        ∈ (bind_input_copies tns ie ien idx g task si des).1 := by
  intro des
  induction des with
  | nil =>
    intro g task si j hj
    exact absurd hj (Nat.not_lt_zero j)
  | cons de rest ih =>
    intro g task si j hj
    have hstep : bind_input_copies tns ie ien idx g task si (de :: rest)
        = bind_input_copies tns ie ien idx
            (add_and_attach_data_entity (add_data_entity_instance g tns de) tns
              (input_copy ie idx si de.iri)
              (predHasInput tns) task.iri)
            { task with input_dict :=
                dict_set task.input_dict ien (input_copy ie idx si de.iri) }
            (si + 1) rest := rfl
    cases j with
    | zero =>
      rw [hstep]
      constructor
      · simp only [Nat.add_zero]
        apply bind_input_copies_mono
        exact mem_gadd_self _ _
      · simp only [Nat.add_zero, List.get]
        apply bind_input_copies_mono
        apply mem_gadd_of_mem
        apply mem_gaddAll_self
        simp [data_entity_triples, input_copy]
    | succ j0 =>
      have hj0 : j0 < rest.length := Nat.lt_of_succ_lt_succ hj
      have hrec := ih
        (add_and_attach_data_entity (add_data_entity_instance g tns de) tns
          (input_copy ie idx si de.iri)
          (predHasInput tns) task.iri)
        { task with input_dict :=
            dict_set task.input_dict ien (input_copy ie idx si de.iri) }
        (si + 1) j0 hj0
      rw [hstep]
      have harith : si + 1 + j0 = si + (j0 + 1) := by omega
      rw [harith] at hrec
      simpa [List.get] using hrec

/-- C10: when the binding list of a single input slot holds more than one
data entity, `add_inputs_to_task` creates and attaches a bound copy for
*every* list element — each with its own `hasInput` attachment and
`hasReference` back to its originating entity — yet the task's `input_dict`
maps the slot name to only the **last** copy created (each iteration
overwrites the slot's entry); with an initially empty `input_dict`, every
earlier copy is absent from `input_dict`. -/
theorem C10_input_dict_keeps_last_copy (tns : String) (g : Graph) (task : CTask)
    (ttd : CounterDict) (p slotIri : String)
    (bindings : List (String × List CDataEntity)) (des : List CDataEntity)
    (dlast : CDataEntity) (c : Nat)
    (hc : ttd.lookup task.type = some c)
    (hdes : bindings.lookup (fragment slotIri) = some des)
    (hlast : des.getLast? = some dlast) :
    ∃ g' t',
      add_inputs_to_task tns g task ttd [(p, slotIri)] bindings = .ok (g', t')
      ∧ t'.input_dict = dict_set task.input_dict (fragment slotIri)
          { iri := slotIri ++ Nat.repr (c - 1) ++ "_" ++ Nat.repr des.length,
            parent_iri := slotIri, has_reference := some dlast.iri }
      ∧ (∀ (j : Nat) (hj : j < des.length),
          (⟨task.iri, predHasInput tns,
            .iri (slotIri ++ Nat.repr (c - 1) ++ "_" ++ Nat.repr (1 + j))⟩ : Triple) ∈ g'
          ∧ (⟨slotIri ++ Nat.repr (c - 1) ++ "_" ++ Nat.repr (1 + j), predHasReference tns,
              .iri (des.get ⟨j, hj⟩).iri⟩ : Triple) ∈ g')
      ∧ (task.input_dict = [] → ∀ j : Nat, 1 + j < des.length →
          ∀ pr ∈ t'.input_dict,
            pr.2.iri ≠ slotIri ++ Nat.repr (c - 1) ++ "_" ++ Nat.repr (1 + j)) := by
  have hlen : des ≠ [] := by
    intro h
    rw [h] at hlast
    cases hlast
  have harith : 1 + des.length - 1 = des.length := by omega
  have hdict := bind_input_copies_dict tns slotIri (fragment slotIri) (c - 1)
    des g task 1 dlast hlast
  rw [harith] at hdict
  refine ⟨(bind_input_copies tns slotIri (fragment slotIri) (c - 1) g task 1 des).1,
          (bind_input_copies tns slotIri (fragment slotIri) (c - 1) g task 1 des).2,
          ?_, hdict, ?_, ?_⟩
  · simp only [add_inputs_to_task, hc, add_inputs_loop, hdes]
  · intro j hj
    exact bind_input_copies_attaches tns slotIri (fragment slotIri) (c - 1)
      des g task 1 j hj
  · intro h0 j hji pr hpr
    rw [hdict, h0] at hpr
    have hpr' : pr = (fragment slotIri,
        { iri := slotIri ++ Nat.repr (c - 1) ++ "_" ++ Nat.repr des.length,
          parent_iri := slotIri, has_reference := some dlast.iri }) := by
      simpa [dict_set] using hpr
    subst hpr'
    intro heq
    have : des.length = 1 + j :=
      append_repr_injective ((slotIri ++ Nat.repr (c - 1)) ++ "_") heq
    omega

/-- A second pre-existing data entity, bound to the same slot as `demo_de1`
in the C10 witness. -/
def demo_de2 : CDataEntity :=
  { iri := "stats#de2", parent_iri := "ds#DataEntity", source_value := some "colB",
    data_semantics := some "ds#TimeSeries", data_structure := some "ds#Vector" }

/-- Witness for C10: a two-element binding list for one slot leaves only the
second copy in `input_dict`, while both copies are attached in the graph. -/
theorem C10_input_dict_keeps_last_copy_witness :
    ∃ g' t',
      add_inputs_to_task demo_tns demo_pipe.1
        { iri := "stats#Filter1", type := "Filter" } [("Filter", 2)]
        [("ds#hasInputP", "stats#DataInFilter")]
        [("DataInFilter", [demo_de1, demo_de2])] = .ok (g', t')
      ∧ t'.input_dict = dict_set [] (fragment "stats#DataInFilter")
          { iri := "stats#DataInFilter" ++ Nat.repr (2 - 1) ++ "_"
              ++ Nat.repr [demo_de1, demo_de2].length,
            parent_iri := "stats#DataInFilter", has_reference := some demo_de2.iri }
      ∧ (∀ (j : Nat) (hj : j < [demo_de1, demo_de2].length),
          (⟨"stats#Filter1", predHasInput demo_tns,
            .iri ("stats#DataInFilter" ++ Nat.repr (2 - 1) ++ "_"
              ++ Nat.repr (1 + j))⟩ : Triple) ∈ g'
          ∧ (⟨"stats#DataInFilter" ++ Nat.repr (2 - 1) ++ "_" ++ Nat.repr (1 + j),
              predHasReference demo_tns,
              .iri ([demo_de1, demo_de2].get ⟨j, hj⟩).iri⟩ : Triple) ∈ g')
      ∧ (([] : List (String × CDataEntity)) = [] →
          ∀ j : Nat, 1 + j < [demo_de1, demo_de2].length →
          ∀ pr ∈ t'.input_dict,
            pr.2.iri ≠ "stats#DataInFilter" ++ Nat.repr (2 - 1) ++ "_"
              ++ Nat.repr (1 + j)) :=
  C10_input_dict_keeps_last_copy demo_tns demo_pipe.1
    { iri := "stats#Filter1", type := "Filter" } [("Filter", 2)]
    "ds#hasInputP" "stats#DataInFilter" [("DataInFilter", [demo_de1, demo_de2])]
    [demo_de1, demo_de2] demo_de2 2 (by decide) (by decide) (by decide)

/-! ### C5 -/

/-- The concrete `add_inputs_to_task` call of the C5 scenario: one slot, one
original entity `demo_de1`. -/
def C5_result : Except (InputsError × Graph) (Graph × CTask) :=
  add_inputs_to_task demo_tns demo_pipe.1
    { iri := "stats#Filter1", type := "Filter" } [("Filter", 2)]
    [("ds#hasInputP", "stats#DataInFilter")] [("DataInFilter", [demo_de1])]

/-- The bound-copy object recorded in `input_dict` by the C5 scenario. -/
def C5_copy : Option CDataEntity :=
  match C5_result with
  | .ok (_, t') => t'.input_dict.lookup "DataInFilter"
  | .error _ => none

/-- The graph read back at execution time in the C5 scenario: the
construction output plus the schema triple declaring the slot class a
subclass of `DataEntity`. -/
def C5_graph : Graph :=
  (match C5_result with
   | .ok (g', _) => g'
   | .error e => e.2)
  ++ [⟨"stats#DataInFilter", rdfs_subClassOf, .iri "ds#DataEntity"⟩]

/-- Counterexample to C5 as stated: the bound copy created by
`add_inputs_to_task` carries `has_reference` equal to the original entity's
full IRI (`stats#de1`), which differs from the original's *name* (`de1`). -/
theorem C5_counterexample :
    C5_copy = some
      { iri := "stats#DataInFilter1_1", parent_iri := "stats#DataInFilter",
        has_reference := some demo_de1.iri }
    ∧ (some demo_de1.iri : Option String) ≠ some (CDataEntity.name demo_de1) := by
  exact ⟨by decide, by decide⟩

/-- C5 (amended): every bound copy's `hasReference` triple points to the
originating entity's IRI (not its name); and parsing the copy back from the
graph yields a `DataEntity` *object* — never a plain literal — whose
`has_reference` field then holds the original's short name. -/
theorem C5_bound_copy_reference :
    (∀ (tns ie ien : String) (idx : Nat) (des : List CDataEntity) (g : Graph)
        (task : CTask) (si j : Nat) (hj : j < des.length),
      (⟨ie ++ Nat.repr idx ++ "_" ++ Nat.repr (si + j), predHasReference tns,
        .iri (des.get ⟨j, hj⟩).iri⟩ : Triple)
        ∈ (bind_input_copies tns ie ien idx g task si des).1)
    ∧ C5_copy = some
        { iri := "stats#DataInFilter1_1", parent_iri := "stats#DataInFilter",
          has_reference := some demo_de1.iri }
    ∧ property_value_to_field_value 10 C5_graph demo_tns "stats#DataInFilter1_1"
        = .de ⟨"stats#DataInFilter1_1", "stats#DataInFilter",
            some (.str "colA"), some (.str "ds#TimeSeries"), some (.str "ds#Vector"),
            some (.str (CDataEntity.name demo_de1))⟩ := by
  refine ⟨?_, by decide, by rfl⟩
  intro tns ie ien idx des g task si j hj
  exact (bind_input_copies_attaches tns ie ien idx des g task si j hj).2

/-- Witness for the amended C5 theorem: the general `hasReference`-triple
conjunct instantiated at the demo scenario. -/
theorem C5_bound_copy_reference_witness :
    (⟨"stats#DataInFilter" ++ Nat.repr 1 ++ "_" ++ Nat.repr (1 + 0),
      predHasReference demo_tns,
      .iri ([demo_de1].get ⟨0, by decide⟩).iri⟩ : Triple)
      ∈ (bind_input_copies demo_tns "stats#DataInFilter" "DataInFilter" 1
          demo_pipe.1 { iri := "stats#Filter1", type := "Filter" } 1 [demo_de1]).1 :=
  C5_bound_copy_reference.1 demo_tns "stats#DataInFilter" "DataInFilter" 1
    [demo_de1] demo_pipe.1 { iri := "stats#Filter1", type := "Filter" } 1 0 (by decide)

/-! ### C3 -/

/-- A persisted graph whose task `stats#T1` is well-formed (typed parent,
attached method) but whose implementation class name matches no registry. -/
def C3_graph : Graph :=
  [⟨"stats#T1", rdf_type, .iri "stats#Filter"⟩,
   ⟨"stats#Filter", rdfs_subClassOf, .iri "ds#AtomicTask"⟩,
   ⟨"stats#T1", "stats#hasFilterMethod", .iri "stats#M1"⟩,
   ⟨"stats#M1", rdf_type, .iri "stats#MeanFilter"⟩,
   ⟨"stats#MeanFilter", rdfs_subClassOf, .iri "ds#AtomicMethod"⟩]

/-- Counterexample to C3 as stated: with no registry exporting
`FilterMeanFilter`, the run dies with the `TypeError` of calling Python
`None` — a fatal outcome whose diagnostic names *no* task IRI (and is not an
error value naming the task). -/
theorem C3_counterexample :
    parse_task_by_iri 5 C3_graph demo_tns ⟨[], [], []⟩ "stats#T1"
      = .error .noneTypeNotCallable
    ∧ ParseError.named_task_iri .noneTypeNotCallable = none := by
  exact ⟨rfl, rfl⟩

/-- C3 (amended): the implementation type is resolved by concatenating the
task's class name and the method's class name and searching the three
registries in the fixed order visualization → statistics → machine-learning,
first match winning; when all three miss, `Class` stays Python `None` and the
run fails fatally with `TypeError: 'NoneType' object is not callable` — a
diagnostic that does **not** name the task IRI. -/
theorem C3_registry_resolution (r : Registries) (cn : String) :
    (resolve_implementation r cn = some .visu ↔ cn ∈ r.visual_tasks)
    ∧ (resolve_implementation r cn = some .stats ↔
        cn ∉ r.visual_tasks ∧ cn ∈ r.statistic_tasks)
    ∧ (resolve_implementation r cn = some .ml ↔
        cn ∉ r.visual_tasks ∧ cn ∉ r.statistic_tasks ∧ cn ∈ r.ml_tasks)
    ∧ (resolve_implementation r cn = none ↔
        cn ∉ r.visual_tasks ∧ cn ∉ r.statistic_tasks ∧ cn ∉ r.ml_tasks)
    ∧ (∀ (fuel : Nat) (g : Graph) (tns task_iri task_parent_iri : String)
         (method : String × String),
        entity_parent g task_iri (tns ++ "AtomicTask") = some task_parent_iri →
        get_method_by_task_iri g tns task_iri = some method →
        resolve_implementation r (fragment task_parent_iri ++ method.2) = none →
        parse_task_by_iri fuel g tns r task_iri = .error .noneTypeNotCallable
        ∧ ParseError.named_task_iri .noneTypeNotCallable = none) := by
  refine ⟨?_, ?_, ?_, ?_, ?_⟩
  · by_cases h1 : cn ∈ r.visual_tasks <;> by_cases h2 : cn ∈ r.statistic_tasks <;>
      by_cases h3 : cn ∈ r.ml_tasks <;> simp [resolve_implementation, h1, h2, h3]
  · by_cases h1 : cn ∈ r.visual_tasks <;> by_cases h2 : cn ∈ r.statistic_tasks <;>
      by_cases h3 : cn ∈ r.ml_tasks <;> simp [resolve_implementation, h1, h2, h3]
  · by_cases h1 : cn ∈ r.visual_tasks <;> by_cases h2 : cn ∈ r.statistic_tasks <;>
      by_cases h3 : cn ∈ r.ml_tasks <;> simp [resolve_implementation, h1, h2, h3]
  · by_cases h1 : cn ∈ r.visual_tasks <;> by_cases h2 : cn ∈ r.statistic_tasks <;>
      by_cases h3 : cn ∈ r.ml_tasks <;> simp [resolve_implementation, h1, h2, h3]
  · intro fuel g tns task_iri task_parent_iri method hpar hmeth hres
    refine ⟨?_, rfl⟩
    simp only [parse_task_by_iri, hpar, hmeth, hres]

/-- Witness for the amended C3 theorem: the lifting conjunct instantiated at
the concrete malformed-registry scenario. -/
theorem C3_registry_resolution_witness :
    parse_task_by_iri 5 C3_graph demo_tns ⟨[], [], []⟩ "stats#T1"
      = .error .noneTypeNotCallable
    ∧ ParseError.named_task_iri .noneTypeNotCallable = none :=
  (C3_registry_resolution ⟨[], [], []⟩ "FilterMeanFilter").2.2.2.2
    5 C3_graph demo_tns "stats#T1" "stats#Filter" ("stats#M1", "MeanFilter")
    (by decide) (by decide) (by decide)

/-! ### C9 -/

theorem set_task_field_has_input (task : PTask) (fn : String) (v : FieldValue) :
    (set_task_field task fn v).has_input
      = if fn = "has_input" then task.has_input ++ [v] else task.has_input := by
  unfold set_task_field
  by_cases h1 : fn = "has_input"
  · simp [h1]
  · by_cases h2 : fn = "has_output"
    · simp [h1, h2]
    · by_cases h3 : fn = "has_next_task"
      · simp [h1, h2, h3]
      · simp [h1, h2, h3]

theorem set_task_field_has_output (task : PTask) (fn : String) (v : FieldValue) :
    (set_task_field task fn v).has_output
      = if fn = "has_output" then task.has_output ++ [v] else task.has_output := by
  unfold set_task_field
  by_cases h1 : fn = "has_input"
  · simp [h1, show ¬ ("has_input" = "has_output") by decide]
  · by_cases h2 : fn = "has_output"
    · simp [h1, h2]
    · by_cases h3 : fn = "has_next_task"
      · simp [h1, h2, h3]
      · simp [h1, h2, h3]

theorem set_task_field_has_next_task (task : PTask) (fn : String) (v : FieldValue) :
    (set_task_field task fn v).has_next_task
      = if fn = "has_next_task" then some v else task.has_next_task := by
  unfold set_task_field
  by_cases h1 : fn = "has_input"
  · simp [h1, show ¬ ("has_input" = "has_next_task") by decide]
  · by_cases h2 : fn = "has_output"
    · simp [h1, h2, show ¬ ("has_output" = "has_next_task") by decide]
    · by_cases h3 : fn = "has_next_task"
      · simp [h1, h2, h3]
      · simp [h1, h2, h3]

theorem set_task_field_iri (task : PTask) (fn : String) (v : FieldValue) :
    (set_task_field task fn v).iri = task.iri := by
  unfold set_task_field
  by_cases h1 : fn = "has_input"
  · simp [h1]
  · by_cases h2 : fn = "has_output"
    · simp [h1, h2]
    · by_cases h3 : fn = "has_next_task"
      · simp [h1, h2, h3]
      · simp [h1, h2, h3]

theorem set_task_field_parent_iri (task : PTask) (fn : String) (v : FieldValue) :
    (set_task_field task fn v).parent_iri = task.parent_iri := by
  unfold set_task_field
  by_cases h1 : fn = "has_input"
  · simp [h1]
  · by_cases h2 : fn = "has_output"
    · simp [h1, h2]
    · by_cases h3 : fn = "has_next_task"
      · simp [h1, h2, h3]
      · simp [h1, h2, h3]

theorem step_has_input (fuel : Nat) (g : Graph) (tns : String) (acc : PTask) (t : Triple) :
    (task_fold_step fuel g tns acc t).has_input
      = if property_name_to_field_name t.pred = "has_input"
        then acc.has_input ++ [property_value_to_field_value fuel g tns t.obj.text]
        else acc.has_input := by
  unfold task_fold_step
  by_cases h : property_name_to_field_name t.pred = "has_input"
  · simp [h, set_task_field_has_input, show ("has_input" : String) ∈ TASK_SETTABLE by decide]
  · by_cases hc : property_name_to_field_name t.pred ∈ TASK_SETTABLE
        ∧ ¬ property_name_to_field_name t.pred = "type"
    · simp [hc, set_task_field_has_input, h]
    · simp [hc, h]

theorem step_has_output (fuel : Nat) (g : Graph) (tns : String) (acc : PTask) (t : Triple) :
    (task_fold_step fuel g tns acc t).has_output
      = if property_name_to_field_name t.pred = "has_output"
        then acc.has_output ++ [property_value_to_field_value fuel g tns t.obj.text]
        else acc.has_output := by
  unfold task_fold_step
  by_cases h : property_name_to_field_name t.pred = "has_output"
  · simp [h, set_task_field_has_output, show ("has_output" : String) ∈ TASK_SETTABLE by decide]
  · by_cases hc : property_name_to_field_name t.pred ∈ TASK_SETTABLE
        ∧ ¬ property_name_to_field_name t.pred = "type"
    · simp [hc, set_task_field_has_output, h]
    · simp [hc, h]

theorem step_has_next_task (fuel : Nat) (g : Graph) (tns : String) (acc : PTask) (t : Triple) :
    (task_fold_step fuel g tns acc t).has_next_task
      = if property_name_to_field_name t.pred = "has_next_task"
        then some (property_value_to_field_value fuel g tns t.obj.text)
        else acc.has_next_task := by
  unfold task_fold_step
  by_cases h : property_name_to_field_name t.pred = "has_next_task"
  · simp [h, set_task_field_has_next_task, show ("has_next_task" : String) ∈ TASK_SETTABLE by decide]
  · by_cases hc : property_name_to_field_name t.pred ∈ TASK_SETTABLE
        ∧ ¬ property_name_to_field_name t.pred = "type"
    · simp [hc, set_task_field_has_next_task, h]
    · simp [hc, h]

theorem step_iri (fuel : Nat) (g : Graph) (tns : String) (acc : PTask) (t : Triple) :
    (task_fold_step fuel g tns acc t).iri = acc.iri := by
  unfold task_fold_step
  by_cases hc : property_name_to_field_name t.pred ∈ TASK_SETTABLE
      ∧ ¬ property_name_to_field_name t.pred = "type"
  · simp [hc, set_task_field_iri]
  · simp [hc]

theorem step_parent_iri (fuel : Nat) (g : Graph) (tns : String) (acc : PTask) (t : Triple) :
    (task_fold_step fuel g tns acc t).parent_iri = acc.parent_iri := by
  unfold task_fold_step
  by_cases hc : property_name_to_field_name t.pred ∈ TASK_SETTABLE
      ∧ ¬ property_name_to_field_name t.pred = "type"
  · simp [hc, set_task_field_parent_iri]
  · simp [hc]

theorem fold_has_input (fuel : Nat) (g : Graph) (tns : String) :
    ∀ (ts : List Triple) (acc : PTask),
      (ts.foldl (task_fold_step fuel g tns) acc).has_input
        = acc.has_input
          ++ (ts.filter
              (fun t => property_name_to_field_name t.pred = "has_input")).map
              (fun t => property_value_to_field_value fuel g tns t.obj.text) := by
  intro ts
  induction ts with
  | nil => intro acc; simp
  | cons t rest ih =>
    intro acc
    rw [List.foldl_cons, ih, step_has_input]
    by_cases h : property_name_to_field_name t.pred = "has_input"
    · simp [h, List.filter_cons]
    · simp [h, List.filter_cons]

theorem fold_has_output (fuel : Nat) (g : Graph) (tns : String) :
    ∀ (ts : List Triple) (acc : PTask),
      (ts.foldl (task_fold_step fuel g tns) acc).has_output
        = acc.has_output
          ++ (ts.filter
              (fun t => property_name_to_field_name t.pred = "has_output")).map
              (fun t => property_value_to_field_value fuel g tns t.obj.text) := by
  intro ts
  induction ts with
  | nil => intro acc; simp
  | cons t rest ih =>
    intro acc
    rw [List.foldl_cons, ih, step_has_output]
    by_cases h : property_name_to_field_name t.pred = "has_output"
    · simp [h, List.filter_cons]
    · simp [h, List.filter_cons]

theorem getLast?_cons_or {α : Type} (x : α) (l : List α) (o : Option α) :
    ((x :: l).getLast?).or o = (l.getLast?).or (some x) := by
  cases l with
  | nil => simp
  | cons b l2 =>
    rw [List.getLast?_cons_cons]
    obtain ⟨y, hy⟩ := Option.isSome_iff_exists.mp
      (List.getLast?_isSome.mpr (List.cons_ne_nil b l2))
    rw [hy]
    simp

theorem fold_has_next_task (fuel : Nat) (g : Graph) (tns : String) :
    ∀ (ts : List Triple) (acc : PTask),
      (ts.foldl (task_fold_step fuel g tns) acc).has_next_task
        = (((ts.filter
              (fun t => property_name_to_field_name t.pred = "has_next_task")).map
              (fun t => property_value_to_field_value fuel g tns t.obj.text)).getLast?).or
            acc.has_next_task := by
  intro ts
  induction ts with
  | nil => intro acc; simp
  | cons t rest ih =>
    intro acc
    rw [List.foldl_cons, ih, step_has_next_task]
    by_cases h : property_name_to_field_name t.pred = "has_next_task"
    · rw [List.filter_cons_of_pos (by simp [h]), List.map_cons, getLast?_cons_or]
      simp [h]
    · rw [List.filter_cons_of_neg (by simp [h])]
      simp [h]

theorem fold_iri (fuel : Nat) (g : Graph) (tns : String) :
    ∀ (ts : List Triple) (acc : PTask),
      (ts.foldl (task_fold_step fuel g tns) acc).iri = acc.iri := by
  intro ts
  induction ts with
  | nil => intro acc; rfl
  | cons t rest ih =>
    intro acc
    simp [List.foldl_cons, ih, step_iri]

theorem fold_parent_iri (fuel : Nat) (g : Graph) (tns : String) :
    ∀ (ts : List Triple) (acc : PTask),
      (ts.foldl (task_fold_step fuel g tns) acc).parent_iri = acc.parent_iri := by
  intro ts
  induction ts with
  | nil => intro acc; rfl
  | cons t rest ih =>
    intro acc
    simp [List.foldl_cons, ih, step_parent_iri]

/-- C9: when reconstructing a task object from the graph, the generic rule
processes exactly the (predicate, value) triples on the task IRI whose
mapped field name is declared and is not the reserved `type` field:
`has_input` and `has_output` accumulate one entry per matching triple in
graph order, while `has_next_task` ends as the value of the *last* matching
triple processed (overwrite semantics); and every value either parses to a
nested `DataEntity` object (when it denotes a data-entity graph node) or is
kept as the plain string — in particular any value without `#` is kept
plain. -/
theorem C9_generic_field_population (fuel : Nat) (g : Graph) (tns : String)
    (r : Registries) (task_iri task_parent_iri : String) (method : String × String)
    (reg : Registry)
    (hpar : entity_parent g task_iri (tns ++ "AtomicTask") = some task_parent_iri)
    (hmeth : get_method_by_task_iri g tns task_iri = some method)
    (hres : resolve_implementation r (fragment task_parent_iri ++ method.2) = some reg) :
    ∃ t, parse_task_by_iri fuel g tns r task_iri = .ok t
      ∧ t.has_input = ((g.filter (fun tr => tr.subj == task_iri)).filter
            (fun tr => property_name_to_field_name tr.pred = "has_input")).map
            (fun tr => property_value_to_field_value fuel g tns tr.obj.text)
      ∧ t.has_output = ((g.filter (fun tr => tr.subj == task_iri)).filter
            (fun tr => property_name_to_field_name tr.pred = "has_output")).map
            (fun tr => property_value_to_field_value fuel g tns tr.obj.text)
      ∧ t.has_next_task = (((g.filter (fun tr => tr.subj == task_iri)).filter
            (fun tr => property_name_to_field_name tr.pred = "has_next_task")).map
            (fun tr => property_value_to_field_value fuel g tns tr.obj.text)).getLast?
      ∧ t.iri = task_iri
      ∧ t.parent_iri = task_parent_iri
      ∧ (∀ v : String, property_value_to_field_value fuel g tns v = .str v
          ∨ ∃ d, parse_data_entity_by_iri fuel g tns v = some d
              ∧ property_value_to_field_value fuel g tns v = .de d)
      ∧ (∀ v : String, ¬ v.data.contains '#' = true →
          property_value_to_field_value fuel g tns v = .str v) := by
  refine ⟨(g.filter (fun tr => tr.subj == task_iri)).foldl (task_fold_step fuel g tns)
      { iri := task_iri, parent_iri := task_parent_iri,
        class_name := fragment task_parent_iri ++ method.2, registry := reg },
    ?_, ?_, ?_, ?_, ?_, ?_, ?_, ?_⟩
  · simp only [parse_task_by_iri, hpar, hmeth, hres]
  · rw [fold_has_input]
    simp
  · rw [fold_has_output]
    simp
  · rw [fold_has_next_task]
    simp
  · rw [fold_iri]
  · rw [fold_parent_iri]
  · intro v
    unfold property_value_to_field_value
    by_cases hv : v.data.contains '#' = true
    · simp only [hv, if_true]
      cases hp : parse_data_entity_by_iri fuel g tns v with
      | none => exact Or.inl rfl
      | some d => exact Or.inr ⟨d, rfl, rfl⟩
    · have hv' : ¬ '#' ∈ v.data := by simpa [List.contains] using hv
      simp [hv']
  · intro v hv
    have hv' : ¬ '#' ∈ v.data := by simpa [List.contains] using hv
    unfold property_value_to_field_value
    simp [hv']

/-- A persisted graph exercising every branch of the generic
field-population rule for task `stats#T1`: two input triples (one a
data-entity node, one a plain value), two next-task triples (last wins), an
`rdf:type` triple (reserved field, skipped), and an unknown predicate
(undeclared field, skipped). -/
def C9_graph : Graph :=
  [⟨"stats#T1", rdf_type, .iri "stats#Filter"⟩,
   ⟨"stats#Filter", rdfs_subClassOf, .iri "ds#AtomicTask"⟩,
   ⟨"stats#T1", "ds#hasInput", .iri "stats#D1"⟩,
   ⟨"stats#T1", "ds#hasInput", .lit "plainValue" "xsd#string"⟩,
   ⟨"stats#D1", rdf_type, .iri "ds#DataEntity"⟩,
   ⟨"stats#T1", "ds#hasNextTask", .iri "stats#T2"⟩,
   ⟨"stats#T1", "ds#hasNextTask", .iri "stats#T3"⟩,
   ⟨"stats#T1", "ds#unknownPredicate", .iri "stats#X"⟩,
   ⟨"stats#T1", "stats#hasFilterMethod", .iri "stats#M1"⟩,
   ⟨"stats#M1", rdf_type, .iri "stats#MeanFilter"⟩,
   ⟨"stats#MeanFilter", rdfs_subClassOf, .iri "ds#AtomicMethod"⟩]

/-- Witness for C9 at the concrete graph `C9_graph`. -/
theorem C9_generic_field_population_witness :
    ∃ t, parse_task_by_iri 5 C9_graph demo_tns ⟨[], ["FilterMeanFilter"], []⟩ "stats#T1"
        = .ok t
      ∧ t.has_input = ((C9_graph.filter (fun tr => tr.subj == "stats#T1")).filter
            (fun tr => property_name_to_field_name tr.pred = "has_input")).map
            (fun tr => property_value_to_field_value 5 C9_graph demo_tns tr.obj.text)
      ∧ t.has_output = ((C9_graph.filter (fun tr => tr.subj == "stats#T1")).filter
            (fun tr => property_name_to_field_name tr.pred = "has_output")).map
            (fun tr => property_value_to_field_value 5 C9_graph demo_tns tr.obj.text)
      ∧ t.has_next_task = (((C9_graph.filter (fun tr => tr.subj == "stats#T1")).filter
            (fun tr => property_name_to_field_name tr.pred = "has_next_task")).map
            (fun tr => property_value_to_field_value 5 C9_graph demo_tns tr.obj.text)).getLast?
      ∧ t.iri = "stats#T1"
      ∧ t.parent_iri = "stats#Filter"
      ∧ (∀ v : String, property_value_to_field_value 5 C9_graph demo_tns v = .str v
          ∨ ∃ d, parse_data_entity_by_iri 5 C9_graph demo_tns v = some d
              ∧ property_value_to_field_value 5 C9_graph demo_tns v = .de d)
      ∧ (∀ v : String, ¬ v.data.contains '#' = true →
          property_value_to_field_value 5 C9_graph demo_tns v = .str v) :=
  C9_generic_field_population 5 C9_graph demo_tns ⟨[], ["FilterMeanFilter"], []⟩
    "stats#T1" "stats#Filter" ("stats#M1", "MeanFilter") .stats
    (by decide) (by decide) (by decide)

/-! ### C4 -/

/-- The loop-relevant view of one task parse: `none` when the parse is
fatal, otherwise the `has_next_task` advance value the loop will use. -/
def parse_next (fuel : Nat) (g : Graph) (tns : String) (r : Registries)
    (task_iri : String) : Option (Option String) :=
  match parse_task_by_iri fuel g tns r task_iri with
  | .error _ => none
  | .ok t => some (task_next_iri t)

theorem execute_loop_step (pfuel : Nat) (g : Graph) (tns : String) (r : Registries)
    (run : PTask → List (String × String) → Option (List (String × String)))
    (fuel : Nat) (iri : String) (t : PTask) (canvas : Option PTask)
    (outs : List (String × String)) (steps : List ExecStep)
    (h : parse_task_by_iri pfuel g tns r iri = .ok t) :
    execute_loop pfuel g tns r run (fuel + 1) (some iri) canvas outs steps
      = execute_loop pfuel g tns r run fuel (task_next_iri t)
          (if t.type = "CanvasTask" then some t else canvas)
          (match run t outs with
           | some o => o.foldl (fun d kv => dict_set d kv.1 kv.2) outs
           | none => outs)
          (⟨iri, canvas, t⟩ :: steps) := by
  simp only [execute_loop, h]

/-- C4: for a persisted graph encoding the chain Pipeline → A → B → C (C has
no next-link), `execute_pipeline` runs exactly A, B, C in that order and
then terminates without error: each iteration advances to the current task's
next-link and the loop stops when the next-link is absent. -/
theorem C4_chain_execution (pfuel : Nat) (g : Graph) (tns : String) (r : Registries)
    (run : PTask → List (String × String) → Option (List (String × String)))
    (p path A B C : String) (lfuel : Nat)
    (hentry : get_pipeline_and_first_task_iri g tns = some (p, path, some A))
    (hA : parse_next pfuel g tns r A = some (some B))
    (hB : parse_next pfuel g tns r B = some (some C))
    (hC : parse_next pfuel g tns r C = some none)
    (hfuel : 3 ≤ lfuel) :
    ∃ steps outputs,
      execute_pipeline pfuel lfuel g tns r run = some (.done steps outputs)
      ∧ steps.map ExecStep.task_iri = [A, B, C] := by
  obtain ⟨k, rfl⟩ : ∃ k, lfuel = k + 3 := ⟨lfuel - 3, by omega⟩
  have split_parse : ∀ (iri : String) (nxt : Option String),
      parse_next pfuel g tns r iri = some nxt →
      ∃ t, parse_task_by_iri pfuel g tns r iri = .ok t ∧ task_next_iri t = nxt := by
    intro iri nxt h
    unfold parse_next at h
    cases hp : parse_task_by_iri pfuel g tns r iri with
    | error e =>
      rw [hp] at h
      cases h
    | ok t =>
      rw [hp] at h
      exact ⟨t, rfl, Option.some.inj h⟩
  obtain ⟨tA, hpA, hnA⟩ := split_parse A (some B) hA
  obtain ⟨tB, hpB, hnB⟩ := split_parse B (some C) hB
  obtain ⟨tC, hpC, hnC⟩ := split_parse C none hC
  simp only [execute_pipeline, hentry]
  have e3 : k + 3 = (k + 2) + 1 := rfl
  rw [e3, execute_loop_step pfuel g tns r run (k + 2) A tA none [] [] hpA, hnA]
  have e2 : k + 2 = (k + 1) + 1 := rfl
  rw [e2, execute_loop_step pfuel g tns r run (k + 1) B tB _ _ _ hpB, hnB]
  rw [execute_loop_step pfuel g tns r run k C tC _ _ _ hpC, hnC]
  simp only [execute_loop]
  exact ⟨_, _, rfl, by simp⟩

/-! ### C8 and the constructed Canvas → Plot → Plot chain -/

/-- First constructed task: a `CanvasTask` with its `CanvasMethod`. -/
def demo_chain_st1 : ConsState :=
  match add_task demo_tns demo_bns demo_vns demo_st0 "CanvasTask" [] "CanvasMethod" [] true
      [] [] [("visu#hasCanvasMethod", "visu#CanvasMethod")] [] with
  | .ok st _ => st
  | .fatal _ _ => demo_st0

/-- Second constructed task: a `PlotTask`. -/
def demo_chain_st2 : ConsState :=
  match add_task demo_tns demo_bns demo_vns demo_chain_st1 "PlotTask" [] "PlotMethod" [] true
      [] [] [("visu#hasPlotMethod", "visu#PlotMethod")] [] with
  | .ok st _ => st
  | .fatal _ _ => demo_chain_st1

/-- Third constructed task: a second `PlotTask`. -/
def demo_chain_st3 : ConsState :=
  match add_task demo_tns demo_bns demo_vns demo_chain_st2 "PlotTask" [] "PlotMethod" [] true
      [] [] [("visu#hasPlotMethod", "visu#PlotMethod")] [] with
  | .ok st _ => st
  | .fatal _ _ => demo_chain_st2

/-- The Visualization schema triples needed to parse the chain back. -/
def demo_visu_schema : Graph :=
  [⟨"visu#CanvasTask", rdfs_subClassOf, .iri "ds#AtomicTask"⟩,
   ⟨"visu#PlotTask", rdfs_subClassOf, .iri "ds#AtomicTask"⟩,
   ⟨"visu#CanvasMethod", rdfs_subClassOf, .iri "ds#AtomicMethod"⟩,
   ⟨"visu#PlotMethod", rdfs_subClassOf, .iri "ds#AtomicMethod"⟩]

/-- The persisted pipeline graph of the constructed
`[CanvasTask, PlotTask, PlotTask]` sequence, with its schema triples. -/
def demo_chain_graph : Graph := demo_chain_st3.output_kg ++ demo_visu_schema

/-- The registries of the chain scenario: the visualization module exports
both implementation classes. -/
def demo_regs : Registries :=
  ⟨["CanvasTaskCanvasMethod", "PlotTaskPlotMethod"], [], []⟩

/-- Witness for C4: the constructed chain Pipeline → CanvasTask1 → PlotTask1
→ PlotTask2 executes exactly those three tasks in order and terminates. -/
theorem C4_chain_execution_witness :
    ∃ steps outputs,
      execute_pipeline 10 10 demo_chain_graph demo_tns demo_regs (fun _ _ => none)
        = some (.done steps outputs)
      ∧ steps.map ExecStep.task_iri
          = ["stats#CanvasTask1", "stats#PlotTask1", "stats#PlotTask2"] :=
  C4_chain_execution 10 demo_chain_graph demo_tns demo_regs (fun _ _ => none)
    "stats#pipe" "data.csv" "stats#CanvasTask1" "stats#PlotTask1" "stats#PlotTask2"
    10 rfl rfl rfl rfl (by decide)

/-- C8: during execution of the constructed sequence
`[CanvasTask, PlotTask, PlotTask]`, the object resolved for the canvas task
is stored as the canvas context after its iteration and that same object is
passed into the resolution of both following plot tasks; it is never cleared
before the pipeline ends. -/
theorem C8_canvas_continuity :
    ∃ steps outputs s1 s2 s3,
      execute_pipeline 10 10 demo_chain_graph demo_tns demo_regs (fun _ _ => none)
        = some (.done steps outputs)
      ∧ steps = [s1, s2, s3]
      ∧ s1.task.type = "CanvasTask"
      ∧ s1.canvas_in = none
      ∧ s2.canvas_in = some s1.task
      ∧ s3.canvas_in = some s1.task := by
  exact ⟨_, _, _, _, _, rfl, rfl, rfl, rfl, rfl, rfl⟩

end ExeKGLib
